import Mathlib

/-!
Verification of the agentci core against its natural-language specification.

The TypeScript sources are shallowly embedded: JavaScript strings are modelled
as lists of UTF-16 code units (`Str := List Nat`; all literals appearing in the
code are ASCII, where code units and code points coincide), JS `Set` objects as
insertion-ordered duplicate-free lists, and `Array.prototype.sort()` (which
compares strings by code units) as stable insertion sort under the
lexicographic order — with a total order both produce the same list.  External collaborators that are not part of this repository — Node's
`crypto` (HMAC-SHA256, SHA-256), the `psl` public-suffix library, `picomatch`,
Node `path` helpers operating on the real filesystem, `JSON.parse` /
`JSON.stringify`, and the ambient environment (HOME, Date.now) — enter the
embedding as explicit function parameters, so every theorem quantifies over
their behaviour unless it pins them down concretely.
-/

namespace AgentCI

/-- JS strings as lists of UTF-16 code units. -/
abbrev Str := List Nat

/-- Embed an ASCII Lean string literal as a JS string value. -/
def str (s : String) : Str := s.data.map Char.toNat

/-- JS `Set.prototype.add`: insertion-ordered, ignores an element already
present. -/
def setAdd (l : List Str) (x : Str) : List Str := if x ∈ l then l else l ++ [x]

/-- ASCII lower-casing, the effect of `String.prototype.toLowerCase` on the
ASCII range (all string constants in the embedded code are ASCII). -/
def lowerChar (c : Nat) : Nat := if 65 ≤ c ∧ c ≤ 90 then c + 32 else c

/-- `String.prototype.toLowerCase`. -/
def toLower (s : Str) : Str := s.map lowerChar

/-- The JS whitespace code points removed by `String.prototype.trim`. -/
def isJsWhitespace (c : Nat) : Bool :=
  c = 9 ∨ c = 10 ∨ c = 11 ∨ c = 12 ∨ c = 13 ∨ c = 32 ∨ c = 160 ∨ c = 0xfeff ∨
  c = 0x1680 ∨ (0x2000 ≤ c ∧ c ≤ 0x200a) ∨ c = 0x2028 ∨ c = 0x2029 ∨ c = 0x202f ∨
  c = 0x205f ∨ c = 0x3000

/-- `String.prototype.trim`. -/
def jsTrim (s : Str) : Str :=
  (s.dropWhile isJsWhitespace).reverse.dropWhile isJsWhitespace |>.reverse

end AgentCI

namespace AgentCI

/-! ### Data model (src/core/types.ts) -/

/-- `argv_mode ∈ {full, hash, none}` (types.ts). -/
inductive ArgvMode | full | hashed | onlyCommand
deriving DecidableEq, Repr

/-- normalization.filesystem options (types.ts). -/
structure FsNormCfg where
  collapse_temp : Bool
  collapse_home : Bool
  ignore_globs : List Str
deriving DecidableEq, Repr

/-- normalization.network options (types.ts). -/
structure NetNormCfg where
  normalize_hosts : Bool
deriving DecidableEq, Repr

/-- normalization.exec options (types.ts). -/
structure ExecNormCfg where
  argv_mode : ArgvMode
  mask_patterns : List Str
deriving DecidableEq, Repr

/-- The `normalization` section of PolicyConfig (types.ts). -/
structure NormalizationCfg where
  version : Str
  filesystem : FsNormCfg
  network : NetNormCfg
  exec : ExecNormCfg
deriving DecidableEq, Repr

/-- The `redaction` section used by normalize.ts
(present in the richer config schema consumed at runtime). -/
structure RedactionCfg where
  redact_paths : List Str
  redact_urls : List Str
  hash_values : Bool
deriving DecidableEq, Repr

/-- policy.filesystem (types.ts). -/
structure FsPolicyCfg where
  allow_writes : List Str
  block_writes : List Str
  enforce_allowlist : Bool
deriving DecidableEq, Repr

/-- policy.network, including the protocol/port lists read by
evaluate.ts (`allow_protocols`, `block_protocols`, `allow_ports`,
`block_ports`). -/
structure NetPolicyCfg where
  allow_etld_plus_1 : List Str
  allow_hosts : List Str
  enforce_allowlist : Bool
  allow_protocols : List Str
  block_protocols : List Str
  allow_ports : List Int
  block_ports : List Int
deriving DecidableEq, Repr

/-- policy.exec (types.ts). -/
structure ExecPolicyCfg where
  allow_commands : List Str
  block_commands : List Str
  enforce_allowlist : Bool
deriving DecidableEq, Repr

/-- policy.sensitive (types.ts). -/
structure SensitivePolicyCfg where
  block_env : List Str
  block_file_globs : List Str
deriving DecidableEq, Repr

/-- The policy sections of PolicyConfig (types.ts). -/
structure PolicySections where
  filesystem : FsPolicyCfg
  network : NetPolicyCfg
  exec : ExecPolicyCfg
  sensitive : SensitivePolicyCfg
deriving DecidableEq, Repr

/-- PolicyConfig (types.ts), with the `redaction` section read by
normalize.ts. -/
structure PolicyConfig where
  version : Int
  workspace_root : Str
  normalization : NormalizationCfg
  redaction : RedactionCfg
  policy : PolicySections
deriving DecidableEq, Repr

/-- `fs_write | fs_read | fs_delete` payload (types.ts `FsEffectData`). -/
structure FsEffectData where
  path_requested : Str
  path_resolved : Str
  is_workspace_local : Bool
deriving DecidableEq, Repr

/-- `net_outbound` payload (types.ts `NetEffectData`). -/
structure NetEffectData where
  host_raw : Str
  host_etld_plus_1 : Str
  method : Str
  protocol : Str
deriving DecidableEq, Repr

/-- `exec` payload (types.ts `ExecEffectData`). -/
structure ExecEffectData where
  command_raw : Str
  argv_normalized : List Str
deriving DecidableEq, Repr

/-- `sensitive_access` payload (types.ts `SensitiveEffectData`);
`key_name` is optional, and the empty string is falsy in JS. -/
structure SensitiveEffectData where
  type : Str
  key_name : Option Str
deriving DecidableEq, Repr

/-- Effect categories (types.ts `EffectCategory`). -/
inductive EffectCategory
  | fs_write | fs_read | fs_delete | net_outbound | exec | sensitive_access
deriving DecidableEq, Repr

/-- types.ts `EffectEventData`: a discriminant plus optional payloads. -/
structure EffectEventData where
  category : EffectCategory
  fs : Option FsEffectData := none
  net : Option NetEffectData := none
  exec : Option ExecEffectData := none
  sensitive : Option SensitiveEffectData := none
deriving DecidableEq, Repr

/-- types.ts `TraceEventType`. -/
inductive TraceEventType | lifecycle | tool_call | tool_result | effect
deriving DecidableEq, Repr

/-- types.ts `TraceEvent`.  `data` is `unknown` in the source; events whose
payload is not an object carrying a truthy `category` are modelled with
`data = none` (summarize.ts skips them either way). -/
structure TraceEvent where
  id : Str
  timestamp : Int
  run_id : Str
  type : TraceEventType
  data : Option EffectEventData
deriving DecidableEq, Repr

/-- The effect lists of the `EffectSignature` produced by
src/core/signature/summarize.ts (the eight accumulator sets it declares). -/
structure SignatureEffects where
  fs_writes : List Str
  fs_reads_external : List Str
  fs_deletes : List Str
  net_etld_plus_1 : List Str
  net_hosts : List Str
  exec_commands : List Str
  exec_argv : List Str
  sensitive_keys_accessed : List Str
deriving DecidableEq, Repr

/-- Signature metadata (types.ts `EffectSignature.meta`). -/
structure SignatureMeta where
  signature_version : Str
  normalization_rules_version : Str
  agentci_version : Str
  platform : Str
  adapter : Str
  scenario_id : Str
  node_version : Str
deriving DecidableEq, Repr

/-- types.ts `EffectSignature` as produced by summarize.ts. -/
structure EffectSignature where
  meta : SignatureMeta
  effects : SignatureEffects
deriving DecidableEq, Repr

end AgentCI

namespace AgentCI

/-! ### External collaborators

Node built-ins and third-party libraries used by the core are not code of this
repository; they enter the embedding as components of `JsEnv` and every
theorem quantifies over them (or instantiates them concretely). -/

/-- The ambient JavaScript environment: Node built-ins (`path`, `crypto`,
`JSON`, `process.env`), `picomatch`, `psl`, and the filesystem-dependent
`toWorkspacePath` of canonicalize.ts. -/
structure JsEnv where
  /-- `picomatch(glob, \x7bdot: true, nocase: false\x7d)(candidate)`, the
  matcher `matchPath` compiles. -/
  pico : Str → Str → Bool
  /-- `picomatch(pattern, \x7bdot: true, nocase: true\x7d)(value)`, the
  case-insensitive matcher `matchKey` compiles. -/
  picoNocase : Str → Str → Bool
  /-- `process.env.HOME || process.env.USERPROFILE` (none when falsy). -/
  home : Option Str
  /-- `path.join(a, b)`. -/
  pathJoin : Str → Str → Str
  /-- `path.resolve(p)` against the current working directory. -/
  pathResolve : Str → Str
  /-- `path.relative(from, to)`. -/
  pathRelative : Str → Str → Str
  /-- `path.isAbsolute(p)`. -/
  pathIsAbsolute : Str → Bool
  /-- `psl.parse(host).domain` when the suffix resolves and is truthy. -/
  pslDomain : Str → Option Str
  /-- `crypto.createHash('sha256').update(s).digest('hex')`. -/
  sha256hex : Str → Str
  /-- `new RegExp(pattern, 'i').test(arg)`. -/
  regexTest : Str → Str → Bool
  /-- whether `new RegExp(pattern, 'i')` constructs without throwing. -/
  regexValid : Str → Bool
  /-- `KEY_VALUE_HINT.exec(arg)` capture group 1, when the hint regex of
  normalize.ts matches. -/
  kvHint : Str → Option Str
  /-- canonicalize.ts `toWorkspacePath(resolvedAbs, workspaceRoot)`: depends on
  the real filesystem through `safeRealpath`; returns `(value, isExternal)`. -/
  toWorkspacePath : Str → Str → Str × Bool
  /-- read_jsonl.ts line admission: `JSON.parse(line)` succeeding with an
  object whose `type` field is truthy (none models both a parse throw and a
  failed object/type check). -/
  parseEvent : Str → Option TraceEvent
  /-- `JSON.stringify` of a string array (exec_argv entries). -/
  jsonArr : List Str → Str
  /-- `process.platform`-`process.arch`. -/
  platform : Str
  /-- `process.version`. -/
  nodeVersion : Str

/-! ### match.ts -/

/-- match.ts `normalizeGlob`: strip one leading `./`. -/
def normalizeGlob (input : Str) : Str :=
  if input.take 2 = str "./" then input.drop 2 else input

/-- match.ts `normalizePathForMatch`: backslashes to `/`, strip one leading
`./`. -/
def normalizePathForMatch (p : Str) : Str :=
  let normalized := p.map (fun c => if c = 92 then 47 else c)
  if normalized.take 2 = str "./" then normalized.drop 2 else normalized

/-- match.ts `expandTilde`: `~/rest` becomes `path.join(home, rest)`. -/
def expandTilde (env : JsEnv) (p : Str) : Str :=
  if p.take 2 = str "~/" then env.pathJoin (env.home.getD []) (p.drop 2) else p

/-- The `^[A-Za-z]:[\\/]` drive-letter test of match.ts `matchPath`. -/
def hasDrivePrefix (p : Str) : Bool :=
  match p with
  | a :: 58 :: c :: _ =>
    decide ((((65 ≤ a ∧ a ≤ 90) ∨ (97 ≤ a ∧ a ≤ 122)) ∧ (c = 92 ∨ c = 47)))
  | _ => false

/-- `replace(new RegExp('^[A-Za-z]:/'), '')` of match.ts `matchPath`
(applied to the normalized candidate, which holds no backslashes). -/
def stripWinDrive (p : Str) : Str :=
  match p with
  | a :: 58 :: 47 :: rest =>
    if (65 ≤ a ∧ a ≤ 90) ∨ (97 ≤ a ∧ a ≤ 122) then rest else p
  | _ => p

/-- `replace(/^\//, '')` of match.ts `matchPath`. -/
def stripLeadingSlash (p : Str) : Str :=
  match p with
  | 47 :: rest => rest
  | _ => p

/-- match.ts `matchPath`: for absolute (or drive-letter-prefixed) candidates
it additionally tries the candidate with the drive-letter or leading-slash
prefix stripped. -/
def matchPath (env : JsEnv) (globs : List Str) (candidate : Str) : Bool :=
  if globs = [] then false
  else
    let normalizedCandidate := normalizePathForMatch candidate
    let stripped := stripLeadingSlash (stripWinDrive normalizedCandidate)
    let candidates :=
      if (env.pathIsAbsolute candidate ∨ hasDrivePrefix candidate = true) ∧
          stripped ≠ [] ∧ stripped ≠ normalizedCandidate then
        [normalizedCandidate, stripped]
      else [normalizedCandidate]
    globs.any fun glob =>
      let expanded := expandTilde env glob
      let normalizedGlob := normalizeGlob (expanded.map (fun c => if c = 92 then 47 else c))
      candidates.any fun value => env.pico normalizedGlob value

/-- match.ts `matchHost`: case-insensitive exact compare, or `*.suffix`
wildcard matching by suffix. -/
def matchHost (patterns : List Str) (host : Str) : Bool :=
  if patterns = [] then false
  else
    let normalized := toLower host
    patterns.any fun pattern =>
      let normalizedPattern := toLower pattern
      if normalizedPattern.take 2 = str "*." then
        (normalizedPattern.drop 1).isSuffixOf normalized
      else decide (normalized = normalizedPattern)

/-- match.ts `matchKey`: case-insensitive glob matching via
`picomatch(pattern, \x7bdot: true, nocase: true\x7d)`. -/
def matchKey (env : JsEnv) (patterns : List Str) (value : Str) : Bool :=
  if patterns = [] then false
  else patterns.any fun pattern => env.picoNocase pattern value

/-! ### normalize.ts -/

/-- The shape of a `TEMP_PATTERNS` regex: case-insensitive literals
interleaved with greedy `[^c]+` segments. -/
inductive RegexTok
  | lit (s : Str)
  | seg (excl : Nat)

/-- Match a token list at the head of `s`, returning the number of code units
consumed (greedy segments; the patterns need no backtracking because every
token following a segment starts with the segment's excluded character). -/
def tryMatchToks : List RegexTok → Str → Option Nat
  | [], _ => some 0
  | .lit l :: ts, s =>
      if (s.take l.length).map lowerChar = l.map lowerChar then
        (tryMatchToks ts (s.drop l.length)).map (· + l.length)
      else none
  | .seg c :: ts, s =>
      let n := (s.takeWhile (fun d => d ≠ c)).length
      if n = 0 then none
      else (tryMatchToks ts (s.drop n)).map (· + n)

/-- `String.prototype.replace` with a global regex: scan left to right,
replacing each non-overlapping match. -/
def globalReplace (toks : List RegexTok) (repl : Str) (s : Str) : Str :=
  match s with
  | [] => []
  | c :: rest =>
    match tryMatchToks toks (c :: rest) with
    | some (n + 1) => repl ++ globalReplace toks repl (rest.drop n)
    | _ => c :: globalReplace toks repl rest
termination_by s.length
decreasing_by
  · simp only [List.length_drop, List.length_cons]
    omega
  · simp

/-- normalize.ts `TEMP_PATTERNS`, in source order. -/
def TEMP_PATTERNS : List (List RegexTok) :=
  [ [.lit (str "/tmp/"), .seg 47],
    [.lit (str "/var/tmp/"), .seg 47],
    [.lit (str "\\Temp\\"), .seg 92],
    [.lit (str "\\tmp\\"), .seg 92],
    [.lit (str "/private/var/folders/"), .seg 47, .lit (str "/"), .seg 47,
      .lit (str "/"), .seg 47] ]

/-- normalize.ts `collapseTemp`. -/
def collapseTemp (pathValue : Str) : Str :=
  TEMP_PATTERNS.foldl (fun result pattern => globalReplace pattern (str "/<temp>") result)
    pathValue

/-- normalize.ts `collapseHome`. -/
def collapseHome (env : JsEnv) (pathValue : Str) : Str :=
  match env.home with
  | none => pathValue
  | some home =>
    let normalizedHome := normalizePathForMatch (home.map (fun c => if c = 92 then 47 else c))
    let normalizedValue := normalizePathForMatch pathValue
    if normalizedValue.take normalizedHome.length = normalizedHome then
      str "~" ++ normalizedValue.drop normalizedHome.length
    else normalizedValue

/-- normalize.ts `hashValue`. -/
def hashValue (env : JsEnv) (value : Str) : Str :=
  str "<hash:" ++ env.sha256hex value ++ str ">"

/-- normalize.ts `applyRedaction`. -/
def applyRedaction (env : JsEnv) (value label : Str) (hashValues : Bool) : Str :=
  if hashValues then hashValue env value else str "<redacted:" ++ label ++ str ">"

/-- normalize.ts `normalizeFsPath`. -/
def normalizeFsPath (env : JsEnv) (value : Str) (config : PolicyConfig) : Option Str :=
  if value = [] then none
  else
    let normalized := normalizePathForMatch (value.map (fun c => if c = 92 then 47 else c))
    let collapsedTemp :=
      if config.normalization.filesystem.collapse_temp then collapseTemp normalized
      else normalized
    let collapsedHome :=
      if config.normalization.filesystem.collapse_home then collapseHome env collapsedTemp
      else collapsedTemp
    if matchPath env config.normalization.filesystem.ignore_globs collapsedHome then none
    else if config.redaction.redact_paths ≠ [] ∧
        matchPath env config.redaction.redact_paths collapsedHome then
      some (applyRedaction env collapsedHome (str "path") config.redaction.hash_values)
    else some collapsedHome

/-- ASCII decimal digit test (`\d` in the port regex). -/
def isDigitChar (c : Nat) : Bool := 48 ≤ c ∧ c ≤ 57

/-- The port-stripping and redaction tail of `normalizeHost` (reached when
the bracketed-IPv6 branch of normalize.ts does not return early): strip a
`:digits` suffix matching `^[^:]+:\d+$`, then apply `redact_urls`. -/
def normalizeHostTail (env : JsEnv) (value : Str) (config : PolicyConfig) : Str :=
  let prefixPart := value.takeWhile (· ≠ 58)
  let value :=
    if prefixPart ≠ [] ∧ prefixPart.length < value.length ∧
        (value.drop (prefixPart.length + 1)).all isDigitChar ∧
        value.drop (prefixPart.length + 1) ≠ [] then
      prefixPart
    else value
  if config.redaction.redact_urls ≠ [] ∧ matchHost config.redaction.redact_urls value then
    applyRedaction env value (str "host") config.redaction.hash_values
  else value

/-- normalize.ts `normalizeHost`. -/
def normalizeHost (env : JsEnv) (host : Str) (config : PolicyConfig) : Str :=
  if ¬config.normalization.network.normalize_hosts then host
  else
    let value := toLower (jsTrim host)
    let value := if value.getLast? = some 46 then value.dropLast else value
    if value.head? = some 91 then
      match value.findIdx? (· = 93) with
      | some closing =>
        let rest := value.drop (closing + 1)
        if rest.take 1 = str ":" then value.take (closing + 1) else value
      | none => normalizeHostTail env value config
    else normalizeHostTail env value config

/-- normalize.ts `DEFAULT_MASK_PATTERNS` (regex sources; they are only ever
passed to the abstract regex engine). -/
def DEFAULT_MASK_PATTERNS : List Str :=
  [ str "sk-[A-Za-z0-9]\x7b10,\x7d",
    str "AKIA[0-9A-Z]\x7b16\x7d",
    str "ASIA[0-9A-Z]\x7b16\x7d",
    str "xox[baprs]-[A-Za-z0-9-]+",
    str "ghp_[A-Za-z0-9]\x7b20,\x7d",
    str "gho_[A-Za-z0-9]\x7b20,\x7d",
    str "github_pat_[A-Za-z0-9_]\x7b20,\x7d",
    str "hf_[A-Za-z0-9]\x7b20,\x7d",
    str "eyJ[A-Za-z0-9_-]\x7b10,\x7d[.][A-Za-z0-9_-]\x7b10,\x7d[.][A-Za-z0-9_-]\x7b10,\x7d",
    str "-----BEGIN [A-Z ]+-----" ]

/-- normalize.ts `maskArg`. -/
def maskArg (env : JsEnv) (patterns : List Str) (arg : Str) : Str :=
  if patterns.any (fun p => env.regexTest p arg) then str "<redacted>"
  else
    match env.kvHint arg with
    | some captured => captured ++ str "<redacted>"
    | none => arg

/-- Decimal printing of a natural number, as JS `String(n)`. -/
def natToStr (n : Nat) : Str :=
  if n < 10 then [48 + n] else natToStr (n / 10) ++ [48 + n % 10]
decreasing_by exact Nat.div_lt_self (by omega) (by omega)

/-- normalize.ts `normalizeExecCommand` (`path.basename`, POSIX rules). -/
def posixBasename (p : Str) : Str :=
  let stripped := p.reverse.dropWhile (· = 47)
  if stripped = [] then (if p = [] then [] else str "/")
  else (stripped.takeWhile (fun c => c ≠ 47)).reverse

/-- normalize.ts `normalizeExecCommand`. -/
def normalizeExecCommand (command : Str) : Str :=
  if command = [] then command else posixBasename command

/-- normalize.ts `normalizeExecArgv`. -/
def normalizeExecArgv (env : JsEnv) (argv : List Str) (config : PolicyConfig) : List Str :=
  if argv = [] then argv
  else
    let patterns :=
      (DEFAULT_MASK_PATTERNS ++ config.normalization.exec.mask_patterns).filter env.regexValid
    let masked := argv.map (maskArg env patterns)
    match config.normalization.exec.argv_mode with
    | .onlyCommand => [masked.headD []]
    | .hashed =>
      let hash := env.sha256hex (List.intercalate [0] masked)
      [masked.headD [], str "<argv_hash:" ++ hash ++ str ">",
        str "<argv_len:" ++ natToStr masked.length ++ str ">"]
    | .full => masked

end AgentCI

namespace AgentCI

/-! ### trace/read_jsonl.ts and signature/summarize.ts -/

/-- read_jsonl.ts `readJsonl`, over the lines of the trace file.  The source
loop `break`s when the *final* line fails to parse and skips a malformed line
otherwise; since a break at the final line ends the loop anyway, both paths
produce the same event list and are modelled by one skip. -/
def readJsonl (env : JsEnv) : List Str → List TraceEvent
  | [] => []
  | l :: ls =>
    let line := jsTrim l
    if line = [] then readJsonl env ls
    else
      match env.parseEvent line with
      | some parsed => parsed :: readJsonl env ls
      | none => readJsonl env ls

/-- canonicalize.ts `toEtldPlus1`: trim and lower-case, then the psl domain
when it resolves, else the input unchanged. -/
def toEtldPlus1 (env : JsEnv) (host : Str) : Str :=
  let trimmed := toLower (jsTrim host)
  match env.pslDomain trimmed with
  | some domain => domain
  | none => trimmed

/-- summarize.ts `sorted`: drop falsy (empty) strings, then
`Array.prototype.sort()` (code-unit lexicographic).  With a total order and
the default comparator, `Array.prototype.sort` produces the unique stable
sorted arrangement, which stable insertion sort computes. -/
def sortedList (values : List Str) : List Str :=
  (values.filter (fun v => v ≠ [])).insertionSort (· ≤ ·)

/-- summarize.ts `detectAdapter`. -/
def detectAdapter (events : List TraceEvent) : Str :=
  if events.any (fun event =>
      event.type = TraceEventType.tool_call ∨ event.type = TraceEventType.tool_result) then
    str "openclaw+node-hook"
  else str "node-hook"

/-- The body of summarize.ts's `for (const event of events)` loop: fold one
event into the eight accumulator sets. -/
def summarizeStep (env : JsEnv) (config : PolicyConfig) (acc : SignatureEffects)
    (event : TraceEvent) : SignatureEffects :=
  if event.type ≠ TraceEventType.effect then acc
  else
    match event.data with
    | none => acc
    | some data =>
      match data.category with
      | .fs_write =>
        match data.fs with
        | none => acc
        | some fsd =>
          let entry := env.toWorkspacePath fsd.path_resolved config.workspace_root
          match normalizeFsPath env entry.1 config with
          | some normalized =>
            if normalized = [] then acc
            else { acc with fs_writes := setAdd acc.fs_writes normalized }
          | none => acc
      | .fs_delete =>
        match data.fs with
        | none => acc
        | some fsd =>
          let entry := env.toWorkspacePath fsd.path_resolved config.workspace_root
          match normalizeFsPath env entry.1 config with
          | some normalized =>
            if normalized = [] then acc
            else { acc with fs_deletes := setAdd acc.fs_deletes normalized }
          | none => acc
      | .fs_read =>
        match data.fs with
        | none => acc
        | some fsd =>
          let entry := env.toWorkspacePath fsd.path_resolved config.workspace_root
          if entry.2 ∨ ¬fsd.is_workspace_local then
            match normalizeFsPath env entry.1 config with
            | some normalized =>
              if normalized = [] then acc
              else { acc with fs_reads_external := setAdd acc.fs_reads_external normalized }
            | none => acc
          else acc
      | .net_outbound =>
        match data.net with
        | none => acc
        | some netd =>
          let host := normalizeHost env netd.host_raw config
          { acc with
            net_hosts := setAdd acc.net_hosts host,
            net_etld_plus_1 := setAdd acc.net_etld_plus_1 (toEtldPlus1 env host) }
      | .exec =>
        match data.exec with
        | none => acc
        | some execd =>
          let argv := execd.argv_normalized
          let normalizedArgv := normalizeExecArgv env argv config
          let argvHead := normalizedArgv.headD []
          let cmd := normalizeExecCommand
            (if argvHead = [] then execd.command_raw else argvHead)
          { acc with
            exec_commands := setAdd acc.exec_commands cmd,
            exec_argv := setAdd acc.exec_argv (env.jsonArr normalizedArgv) }
      | .sensitive_access =>
        match data.sensitive with
        | none => acc
        | some sens =>
          match sens.key_name with
          | some key =>
            if key = [] then acc
            else { acc with
              sensitive_keys_accessed := setAdd acc.sensitive_keys_accessed key }
          | none => acc

/-- The empty accumulator (eight empty sets). -/
def emptyEffects : SignatureEffects := ⟨[], [], [], [], [], [], [], []⟩

/-- summarize.ts `summarizeTrace`, over the lines of the trace file. -/
def summarizeTrace (env : JsEnv) (lines : List Str) (config : PolicyConfig)
    (agentciVersion : Str) : EffectSignature :=
  let events := readJsonl env lines
  let effects := events.foldl (summarizeStep env config) emptyEffects
  { meta :=
      { signature_version := str "1.0"
        normalization_rules_version := config.normalization.version
        agentci_version := agentciVersion
        platform := env.platform
        adapter := detectAdapter events
        scenario_id := str "default"
        node_version := env.nodeVersion }
    effects :=
      { fs_writes := sortedList effects.fs_writes
        fs_reads_external := sortedList effects.fs_reads_external
        fs_deletes := sortedList effects.fs_deletes
        net_etld_plus_1 := sortedList effects.net_etld_plus_1
        net_hosts := sortedList effects.net_hosts
        exec_commands := sortedList effects.exec_commands
        exec_argv := sortedList effects.exec_argv
        sensitive_keys_accessed := sortedList effects.sensitive_keys_accessed } }

end AgentCI

namespace AgentCI

/-! ### The richer signature schema and the diff engine (core/diff/diff.ts)

Design note §9 of the spec: the source mixes two signature schemas, with and
without `net_protocols` / `net_ports`; the diff engine, the policy evaluator
and the similarity layer consume the richer one and read the two extra fields
defensively (`?? []`), so they are optional here. -/

/-- Effect lists of the richer signature schema. -/
structure RichEffects where
  fs_writes : List Str
  fs_reads_external : List Str
  fs_deletes : List Str
  net_protocols : Option (List Str)
  net_etld_plus_1 : List Str
  net_hosts : List Str
  net_ports : Option (List Int)
  exec_commands : List Str
  exec_argv : List Str
  sensitive_keys_accessed : List Str
deriving DecidableEq, Repr

/-- A signature in the richer schema. -/
structure RichSignature where
  meta : SignatureMeta
  effects : RichEffects
deriving DecidableEq, Repr

/-- diff.ts `DriftResult`: one list per effect field. -/
structure DriftResult where
  fs_writes : List Str
  fs_reads_external : List Str
  fs_deletes : List Str
  net_protocols : List Str
  net_etld_plus_1 : List Str
  net_hosts : List Str
  net_ports : List Int
  exec_commands : List Str
  exec_argv : List Str
  sensitive_keys_accessed : List Str
deriving DecidableEq, Repr

/-- diff.ts `DiffResult`. -/
structure DiffResult where
  baseline : Option RichSignature
  current : RichSignature
  drift : DriftResult
deriving DecidableEq, Repr

/-- diff.ts `diffSet`: keep the current elements not in the baseline set. -/
def diffSet (current : List Str) (baseline : Option (List Str)) : List Str :=
  current.filter fun value => ¬ value ∈ baseline.getD []

/-- JS `String(i)` for an integer-valued number. -/
def intToStr (i : Int) : Str :=
  if i < 0 then 45 :: natToStr i.natAbs else natToStr i.toNat

/-- Fold decimal digits back into a natural number. -/
def parseNatDigits (l : Str) : Nat :=
  l.foldl (fun acc d => acc * 10 + (d - 48)) 0

/-- JS `Number(s)` restricted to the strings produced by `String(i)` for
integers; other inputs are modelled as `none` (`NaN`), which the
`Number.isFinite` filter in diff.ts discards. -/
def jsNumberOfString (s : Str) : Option Int :=
  match s with
  | [] => none
  | c :: rest =>
    if c = 45 then
      if rest ≠ [] ∧ rest.all isDigitChar then some (-(parseNatDigits rest : Int)) else none
    else if (c :: rest).all isDigitChar then some (parseNatDigits (c :: rest) : Int)
    else none

/-- diff.ts `diffSignatures`. -/
def diffSignatures (baseline : Option RichSignature) (current : RichSignature) : DiffResult :=
  { baseline := baseline
    current := current
    drift :=
      { fs_writes := diffSet current.effects.fs_writes (baseline.map (·.effects.fs_writes))
        fs_reads_external :=
          diffSet current.effects.fs_reads_external (baseline.map (·.effects.fs_reads_external))
        fs_deletes := diffSet current.effects.fs_deletes (baseline.map (·.effects.fs_deletes))
        net_protocols :=
          diffSet (current.effects.net_protocols.getD [])
            (baseline.bind (fun b => b.effects.net_protocols))
        net_etld_plus_1 :=
          diffSet current.effects.net_etld_plus_1 (baseline.map (·.effects.net_etld_plus_1))
        net_hosts := diffSet current.effects.net_hosts (baseline.map (·.effects.net_hosts))
        net_ports :=
          ((diffSet ((current.effects.net_ports.getD []).map intToStr)
              (baseline.bind (fun b => b.effects.net_ports.map (·.map intToStr)))).map
            jsNumberOfString).reduceOption
        exec_commands :=
          diffSet current.effects.exec_commands (baseline.map (·.effects.exec_commands))
        exec_argv := diffSet current.effects.exec_argv (baseline.map (·.effects.exec_argv))
        sensitive_keys_accessed :=
          diffSet current.effects.sensitive_keys_accessed
            (baseline.map (·.effects.sensitive_keys_accessed)) } }

end AgentCI

namespace AgentCI

/-! ### integrity.ts

`crypto.createHmac('sha256', key).update(content).digest('hex')` is external
code; it appears as an abstract `hmac : key → content → digest` parameter.
The hex encoding of the digest and its decoding by `Buffer.from(hex, 'hex')`
in the verifier are mutually inverse on digests, so checksum records hold the
digest value directly.  The tamper-resistance theorems take the relevant
collision-freeness of HMAC-SHA256 as an explicit hypothesis. -/

/-- The legacy run-id-derived key. -/
def legacyKey (runId : Str) : Str := str "agentci-legacy:" ++ runId

/-- integrity.ts `loadSecret`: the trimmed contents of
`<workspace>/.agentci/secret` when that file exists, else the legacy key.
`secretFile` stands for the contents of the secret file (none = absent). -/
def loadSecret (secretFile : Option Str) (runId : Str) : Str :=
  match secretFile with
  | some contents => jsTrim contents
  | none => legacyKey runId

/-- integrity.ts `computeTraceHmac` (and the identical `computeFileHmac`):
HMAC over the file contents, keyed by `secret ?? agentci-legacy:<runId>`. -/
def computeTraceHmac (hmac : Str → Str → List Nat) (content : Str) (runId : Str)
    (secret : Option Str) : List Nat :=
  hmac (secret.getD (legacyKey runId)) content

/-- JS truthiness of an optional string (`undefined` and `''` are falsy). -/
def optTruthy : Option Str → Bool
  | some s => s ≠ []
  | none => false

/-- The checksum JSON object written next to a trace or signature file;
`file` holds the `trace_file` / `signature_file` basename. -/
structure Checksum where
  algorithm : Str
  hmacv : List Nat
  file : Str
  run_id : Str
  key_source : Str
  computed_at : Str
deriving DecidableEq, Repr

/-- integrity.ts `writeTraceChecksum`.  `content` is the trace file's bytes,
`fileBase` its basename, `secretFile` the contents of the secret file the
`loadSecret` fallback would read, `nowIso` the `new Date().toISOString()`
timestamp. -/
def writeTraceChecksum (hmac : Str → Str → List Nat) (content : Str) (fileBase : Str)
    (runId : Str) (secret : Option Str) (secretFile : Option Str) (nowIso : Str) : Checksum :=
  let key := secret.getD (loadSecret secretFile runId)
  { algorithm := str "hmac-sha256"
    hmacv := computeTraceHmac hmac content runId (some key)
    file := fileBase
    run_id := runId
    key_source := if optTruthy secret then str "project-secret" else str "legacy"
    computed_at := nowIso }

/-- integrity.ts `writeSignatureChecksum` (same computation over the
signature file). -/
def writeSignatureChecksum (hmac : Str → Str → List Nat) (content : Str) (fileBase : Str)
    (runId : Str) (secret : Option Str) (secretFile : Option Str) (nowIso : Str) : Checksum :=
  let key := secret.getD (loadSecret secretFile runId)
  { algorithm := str "hmac-sha256"
    hmacv := hmac key content
    file := fileBase
    run_id := runId
    key_source := if optTruthy secret then str "project-secret" else str "legacy"
    computed_at := nowIso }

/-- Result of the integrity verifiers. -/
structure VerifyResult where
  valid : Bool
  details : Str
deriving DecidableEq, Repr

/-- integrity.ts `verifyTraceIntegrity`.  `stored = none` covers both a
missing checksum file and one that fails to parse (distinct detail strings in
the source, identical validity). -/
def verifyTraceIntegrity (hmac : Str → Str → List Nat) (content : Str) (runId : Str)
    (secret : Option Str) (secretFile : Option Str) (stored : Option Checksum) : VerifyResult :=
  match stored with
  | none => { valid := false, details := str "Checksum file not found" }
  | some chk =>
    if chk.run_id ≠ runId then
      { valid := false, details := str "Run ID mismatch: expected " ++ runId ++
          str ", got " ++ chk.run_id }
    else
      let key := secret.getD (loadSecret secretFile runId)
      let computed := computeTraceHmac hmac content runId (some key)
      if computed.length ≠ chk.hmacv.length then
        { valid := false, details := str "HMAC mismatch — trace file has been modified" }
      else if computed ≠ chk.hmacv then
        { valid := false, details := str "HMAC mismatch — trace file has been modified" }
      else
        { valid := true
          details := str "Trace integrity verified" ++
            (if chk.key_source = str "project-secret" then str " (project secret)"
             else str " (legacy key)") }

/-- integrity.ts `verifySignatureIntegrity`. -/
def verifySignatureIntegrity (hmac : Str → Str → List Nat) (content : Str) (runId : Str)
    (secret : Option Str) (secretFile : Option Str) (stored : Option Checksum) : VerifyResult :=
  match stored with
  | none => { valid := false, details := str "Checksum file not found" }
  | some chk =>
    if chk.run_id ≠ runId then
      { valid := false, details := str "Run ID mismatch: expected " ++ runId ++
          str ", got " ++ chk.run_id }
    else
      let key := secret.getD (loadSecret secretFile runId)
      let computed := hmac key content
      if computed.length ≠ chk.hmacv.length then
        { valid := false, details := str "HMAC mismatch — signature file has been modified" }
      else if computed ≠ chk.hmacv then
        { valid := false, details := str "HMAC mismatch — signature file has been modified" }
      else
        { valid := true
          details := str "Signature integrity verified" ++
            (if chk.key_source = str "project-secret" then str " (project secret)"
             else str " (legacy key)") }

end AgentCI

namespace AgentCI

/-! ### recorder/writer.ts

The TraceWriter's observable state: the trace file contents, the in-memory
buffer, the shared bypass flag, and the counters.  `Date.now()` enters
`write` as the `now` argument; the periodic flush timer is modelled by
`flushW` being callable at any point; an `appendFileSync` failure (caught and
logged by the source, losing the flushed lines) is not modelled. -/

structure WriterState where
  file : Str
  buffer : List Str
  closed : Bool
  bypass : Bool
  bufferSize : Nat
  maxEventsPerSecond : Nat
  eventCountInWindow : Nat
  windowStartMs : Nat
  droppedInWindow : Nat
  totalDropped : Nat
  totalEvents : Nat
deriving DecidableEq, Repr

/-- The writer as constructed: empty trace file, empty buffer, defaults
`bufferSize = 64`, `maxEventsPerSecond = 10000`. -/
def initWriter (bufferSize maxEventsPerSecond : Nat) : WriterState :=
  { file := [], buffer := [], closed := false, bypass := false
    bufferSize := bufferSize, maxEventsPerSecond := maxEventsPerSecond
    eventCountInWindow := 0, windowStartMs := 0, droppedInWindow := 0
    totalDropped := 0, totalEvents := 0 }

/-- writer.ts `flush`: join the buffer, append under the bypass flag
(set across the append, reset after). -/
def flushW (s : WriterState) : WriterState :=
  if s.buffer = [] then s
  else { s with buffer := [], file := s.file ++ s.buffer.flatten, bypass := false }

/-- The serialization-and-buffering tail of writer.ts `write`. -/
def bufferLine (serialize : TraceEvent → Str) (s : WriterState) (event : TraceEvent) :
    WriterState :=
  let line := serialize event ++ str "\n"
  let s := { s with buffer := s.buffer ++ [line] }
  if s.buffer.length ≥ s.bufferSize then flushW s else s

/-- writer.ts `write`: no-op when closed; count the event; fixed 1-second
rate-limit window; buffer the serialized line and flush on a full buffer. -/
def writeW (serialize : TraceEvent → Str) (s : WriterState) (event : TraceEvent)
    (now : Nat) : WriterState :=
  if s.closed then s
  else
    let s1 := { s with totalEvents := s.totalEvents + 1 }
    if s1.maxEventsPerSecond > 0 then
      let s2 :=
        if now - s1.windowStartMs ≥ 1000 then
          { s1 with windowStartMs := now, eventCountInWindow := 0, droppedInWindow := 0 }
        else s1
      if s2.eventCountInWindow ≥ s2.maxEventsPerSecond then
        { s2 with droppedInWindow := s2.droppedInWindow + 1
                  totalDropped := s2.totalDropped + 1 }
      else
        bufferLine serialize { s2 with eventCountInWindow := s2.eventCountInWindow + 1 } event
    else bufferLine serialize s1 event

/-- writer.ts `close`: idempotent; stops the timer and flushes once. -/
def closeW (s : WriterState) : WriterState :=
  if s.closed then s else flushW { s with closed := true }

/-- writer.ts `getMetrics`:
`(total_events, total_dropped, buffer_length)`. -/
def getMetrics (s : WriterState) : Nat × Nat × Nat :=
  (s.totalEvents, s.totalDropped, s.buffer.length)

end AgentCI

namespace AgentCI

/-! ### policy/evaluate.ts -/

/-- Finding severities (types.ts `Severity`). -/
inductive Severity | INFO | WARN | BLOCK
deriving DecidableEq, Repr

/-- types.ts `PolicyFinding` (evaluate.ts populates severity, category and
message only). -/
structure PolicyFinding where
  severity : Severity
  category : Str
  message : Str
deriving DecidableEq, Repr

/-- evaluate.ts `isAbsolute`: `path.isAbsolute` or a Windows drive prefix
`X:\`. -/
def isAbsolutePath (env : JsEnv) (p : Str) : Bool :=
  env.pathIsAbsolute p ||
    (match p with
     | a :: 58 :: 92 :: _ => decide ((65 ≤ a ∧ a ≤ 90) ∨ (97 ≤ a ∧ a ≤ 122))
     | _ => false)

/-- evaluate.ts `isSubpath`. -/
def isSubpath (env : JsEnv) (target root : Str) : Bool :=
  let relative := env.pathRelative root target
  if relative = [] then true
  else ¬relative.take 2 = str ".." ∧ ¬env.pathIsAbsolute relative

/-- The per-path body of the `fs_writes` loop of evaluate.ts. -/
def fsWriteFindings (env : JsEnv) (config : PolicyConfig) (workspaceRoot : Str)
    (writePath : Str) : List PolicyFinding :=
  let allowWrites := config.policy.filesystem.allow_writes
  let blockWrites := config.policy.filesystem.block_writes
  let absolute := isAbsolutePath env writePath
  if absolute ∧ ¬isSubpath env (expandTilde env writePath) workspaceRoot then
    [{ severity := .BLOCK, category := str "filesystem"
       message := str "Filesystem Violation (BLOCK): write resolved outside workspace root: " ++
         writePath }]
  else
    let candidate :=
      if absolute then normalizePathForMatch (env.pathRelative workspaceRoot writePath)
      else normalizePathForMatch writePath
    if matchPath env blockWrites (if absolute then expandTilde env writePath else candidate) then
      [{ severity := .BLOCK, category := str "filesystem"
         message := str "Filesystem Violation (BLOCK): write blocked by policy: " ++ writePath }]
    else if ¬matchPath env allowWrites candidate then
      [{ severity := if config.policy.filesystem.enforce_allowlist then .BLOCK else .WARN
         category := str "filesystem"
         message := str "Filesystem Violation (" ++
           (if config.policy.filesystem.enforce_allowlist then str "BLOCK" else str "WARN") ++
           str "): write not in allow_writes: " ++ writePath }]
    else []

/-- The BLOCK finding of the `net_hosts` loop of evaluate.ts. -/
def netHostBlockFinding (host etld : Str) : PolicyFinding :=
  { severity := .BLOCK, category := str "network"
    message := str "Network Drift (BLOCK): Host '" ++ host ++ str "' (eTLD+1: " ++ etld ++
      str ") not allowed by policy.network.allow_*" }

/-- The per-host body of the `net_hosts` loop of evaluate.ts. -/
def netHostFindings (env : JsEnv) (config : PolicyConfig) (host : Str) : List PolicyFinding :=
  let allowedEtlds := config.policy.network.allow_etld_plus_1.map toLower
  let hasNetworkAllowlist :=
    config.policy.network.allow_hosts ≠ [] ∨ config.policy.network.allow_etld_plus_1 ≠ []
  let hostAllowed := matchHost config.policy.network.allow_hosts host
  let etld := toLower (toEtldPlus1 env host)
  let etldAllowed := etld ∈ allowedEtlds
  if ¬hostAllowed ∧ ¬etldAllowed ∧
      (config.policy.network.enforce_allowlist ∨ hasNetworkAllowlist) then
    [netHostBlockFinding host etld]
  else []

/-- The per-protocol body of the `net_protocols` loop of evaluate.ts. -/
def netProtocolFindings (config : PolicyConfig) (protocol : Str) : List PolicyFinding :=
  let allowProtocols := config.policy.network.allow_protocols.map toLower
  let blockProtocols := config.policy.network.block_protocols.map toLower
  let normalized := toLower protocol
  if normalized ∈ blockProtocols then
    [{ severity := .BLOCK, category := str "network"
       message := str "Network Violation (BLOCK): protocol '" ++ protocol ++
         str "' is blocked by policy.network.block_protocols" }]
  else if allowProtocols ≠ [] ∧ ¬normalized ∈ allowProtocols then
    [{ severity := .BLOCK, category := str "network"
       message := str "Network Violation (BLOCK): protocol '" ++ protocol ++
         str "' not in allow_protocols" }]
  else []

/-- The per-port body of the `net_ports` loop of evaluate.ts. -/
def netPortFindings (config : PolicyConfig) (port : Int) : List PolicyFinding :=
  if port ∈ config.policy.network.block_ports then
    [{ severity := .BLOCK, category := str "network"
       message := str "Network Violation (BLOCK): port '" ++ intToStr port ++
         str "' is blocked by policy.network.block_ports" }]
  else if config.policy.network.allow_ports ≠ [] ∧
      ¬port ∈ config.policy.network.allow_ports then
    [{ severity := .BLOCK, category := str "network"
       message := str "Network Violation (BLOCK): port '" ++ intToStr port ++
         str "' not in allow_ports" }]
  else []

/-- The per-command body of the `exec_commands` loop of evaluate.ts. -/
def execCommandFindings (config : PolicyConfig) (cmd : Str) : List PolicyFinding :=
  if cmd ∈ config.policy.exec.block_commands then
    [{ severity := .BLOCK, category := str "exec"
       message := str "Exec Violation (BLOCK): command '" ++ cmd ++
         str "' is blocked by policy.exec.block_commands" }]
  else if ¬cmd ∈ config.policy.exec.allow_commands then
    [{ severity := if config.policy.exec.enforce_allowlist then .BLOCK else .WARN
       category := str "exec"
       message := str "Exec Violation (" ++
         (if config.policy.exec.enforce_allowlist then str "BLOCK" else str "WARN") ++
         str "): command '" ++ cmd ++ str "' not in allow_commands (not blocked)" }]
  else []

/-- The per-key body of the `sensitive_keys_accessed` loop of evaluate.ts. -/
def sensitiveFindings (env : JsEnv) (config : PolicyConfig) (sensitive : Str) :
    List PolicyFinding :=
  if matchKey env config.policy.sensitive.block_env sensitive then
    [{ severity := .BLOCK, category := str "sensitive"
       message := str "Sensitive Access (BLOCK): env var '" ++ sensitive ++
         str "' accessed" }]
  else
    let expanded := expandTilde env sensitive
    if matchPath env config.policy.sensitive.block_file_globs expanded then
      [{ severity := .BLOCK, category := str "sensitive"
         message := str "Sensitive Access (BLOCK): file access '" ++ sensitive ++
           str "' matches blocked globs" }]
    else []

/-- evaluate.ts `evaluatePolicy`: the findings pushed by the six sequential
loops, in order. -/
def evaluatePolicy (env : JsEnv) (signature : RichSignature) (config : PolicyConfig) :
    List PolicyFinding :=
  let workspaceRoot := env.pathResolve config.workspace_root
  signature.effects.fs_writes.flatMap (fsWriteFindings env config workspaceRoot) ++
  signature.effects.net_hosts.flatMap (netHostFindings env config) ++
  (signature.effects.net_protocols.getD []).flatMap (netProtocolFindings config) ++
  (signature.effects.net_ports.getD []).flatMap (netPortFindings config) ++
  signature.effects.exec_commands.flatMap (execCommandFindings config) ++
  signature.effects.sensitive_keys_accessed.flatMap (sensitiveFindings env config)

end AgentCI

namespace AgentCI

/-! ### pro/similarity vectorize.ts

`Float64Array` arithmetic is modelled over `ℚ`; `Math.sqrt` enters as the
abstract `jsSqrt` parameter (IEEE sqrt is exact at the values the theorems
evaluate it at, and the amended identity property takes the required
exactness as a hypothesis). -/

/-- vectorize.ts `Vocabulary` (`tokenToIndex` and `size` are derived). -/
structure Vocabulary where
  tokens : List Str
deriving DecidableEq, Repr

/-- The prefixed token multiset a signature contributes, in the source's
iteration order (shared by `buildVocabulary` and `vectorizeSignature`). -/
def sigTokens (sig : RichSignature) : List Str :=
  sig.effects.fs_writes.map (fun w => str "fs_w:" ++ w) ++
  sig.effects.fs_reads_external.map (fun r => str "fs_r:" ++ r) ++
  sig.effects.fs_deletes.map (fun d => str "fs_d:" ++ d) ++
  (sig.effects.net_protocols.getD []).map (fun p => str "net_p:" ++ p) ++
  sig.effects.net_hosts.map (fun h => str "net_h:" ++ h) ++
  sig.effects.net_etld_plus_1.map (fun e => str "net_e:" ++ e) ++
  (sig.effects.net_ports.getD []).map (fun port => str "net_port:" ++ intToStr port) ++
  sig.effects.exec_commands.map (fun c => str "exec_c:" ++ c) ++
  sig.effects.exec_argv.map (fun a => str "exec_a:" ++ a) ++
  sig.effects.sensitive_keys_accessed.map (fun s => str "sens:" ++ s)

/-- vectorize.ts `buildVocabulary`: the sorted deduplicated token set. -/
def buildVocabulary (signatures : List RichSignature) : Vocabulary :=
  { tokens :=
      ((signatures.flatMap sigTokens).foldl setAdd []).insertionSort (· ≤ ·) }

/-- `tokenToIndex.get`: the Map built by `tokens.forEach((token, i) =>
set(token, i))` keeps the last index of each token. -/
def tokenIndexOf (tokens : List Str) (t : Str) : Option Nat :=
  (tokens.reverse.indexOf? t).map (fun j => tokens.length - 1 - j)

/-- The 0/1 presence vector the `addTokens` loops of `vectorizeSignature`
build before normalization: position `i` holds 1 exactly when some token of
the signature maps to index `i`. -/
def rawVector (sig : RichSignature) (vocab : Vocabulary) : List ℚ :=
  (List.range vocab.tokens.length).map fun i =>
    if (sigTokens sig).any (fun t => tokenIndexOf vocab.tokens t = some i) then (1 : ℚ)
    else 0

/-- vectorize.ts `vectorizeSignature`: the 0/1 presence vector over the
vocabulary, L2-normalized when the norm is positive. -/
def vectorizeSignature (jsSqrt : ℚ → ℚ) (sig : RichSignature) (vocab : Vocabulary) :
    List ℚ :=
  let vec := rawVector sig vocab
  let norm := jsSqrt ((vec.map (fun v => v * v)).sum)
  if norm > 0 then vec.map (fun v => v / norm) else vec

/-- vectorize.ts `cosineSimilarity`. -/
def cosineSimilarity (a b : List ℚ) : ℚ :=
  if a.length ≠ b.length then 0
  else if a.length = 0 then 1
  else max 0 (min 1 (List.zipWith (fun x y => x * y) a b).sum)

end AgentCI

namespace AgentCI

/-! ### Concrete instantiations used by the closed theorems -/

/-- A concrete `JsEnv` with trivial externals, used to instantiate closed
theorems whose evaluation never reaches the corresponding external call (or
reaches it only where the concrete behaviour shown here matches the real
library: `picomatch` on an empty glob list is never consulted, `psl` returns
no domain for unresolvable hosts). -/
def plainEnv : JsEnv :=
  { pico := fun _ _ => false
    picoNocase := fun _ _ => false
    home := none
    pathJoin := fun a b => a ++ str "/" ++ b
    pathResolve := fun p => p
    pathRelative := fun _ b => b
    pathIsAbsolute := fun p => p.take 1 = str "/"
    pslDomain := fun _ => none
    sha256hex := fun _ => str "0"
    regexTest := fun _ _ => false
    regexValid := fun _ => true
    kvHint := fun _ => none
    toWorkspacePath := fun p _ => (p, true)
    parseEvent := fun _ => none
    jsonArr := fun _ => str "[]"
    platform := str "linux-x64"
    nodeVersion := str "v20.0.0" }

/-- A concrete policy configuration: collapse and redaction rules off, no
globs, no allow/block lists (all schema-valid option values). -/
def plainConfig : PolicyConfig :=
  { version := 1
    workspace_root := str "."
    normalization :=
      { version := str "1.0"
        filesystem := { collapse_temp := false, collapse_home := false, ignore_globs := [] }
        network := { normalize_hosts := true }
        exec := { argv_mode := .full, mask_patterns := [] } }
    redaction := { redact_paths := [], redact_urls := [], hash_values := false }
    policy :=
      { filesystem := { allow_writes := [], block_writes := [], enforce_allowlist := false }
        network := { allow_etld_plus_1 := [], allow_hosts := [], enforce_allowlist := false
                     allow_protocols := [], block_protocols := []
                     allow_ports := [], block_ports := [] }
        exec := { allow_commands := [], block_commands := [], enforce_allowlist := false }
        sensitive := { block_env := [], block_file_globs := [] } } }

/-- A concrete key-injective stand-in for HMAC-SHA256 (used to discharge the
collision-freeness hypotheses of the integrity theorems at concrete inputs;
real HMAC-SHA256 has no known such collisions). -/
def hmacPair (key content : Str) : List Nat := key.length :: (key ++ content)

/-- A concrete trace event. -/
def witnessEvent : TraceEvent :=
  { id := str "1", timestamp := 0, run_id := str "r", type := .lifecycle, data := none }

/-- The single `net_outbound` event of the C1 evaluation: protocol `https`,
port 443 on the wire, host `Example.com`. -/
def c1NetEvent : TraceEvent :=
  { id := str "evt1", timestamp := 0, run_id := str "r1", type := .effect
    data := some
      { category := .net_outbound
        net := some
          { host_raw := str "Example.com", host_etld_plus_1 := str "example.com"
            method := str "GET", protocol := str "https" } } }

/-- `plainEnv` with a parser admitting the single C1 trace line. -/
def c1Env : JsEnv :=
  { plainEnv with parseEvent := fun l => if l = str "NET" then some c1NetEvent else none }

/-! ### C10 — writes after close are no-ops -/

/-- C10: for every TraceWriter state on which `close()` has been called,
a subsequent `write(event)` is a no-op: the state (in particular the buffer
and the trace file) is unchanged and `getMetrics` returns the same
`total_events`, `total_dropped` and `buffer_length`. -/
theorem writer_write_after_close (serialize : TraceEvent → Str) (s : WriterState)
    (event : TraceEvent) (now : Nat) (h : s.closed = true) :
    writeW serialize s event now = s ∧
    (writeW serialize s event now).buffer = s.buffer ∧
    (writeW serialize s event now).file = s.file ∧
    getMetrics (writeW serialize s event now) = getMetrics s := by
  have he : writeW serialize s event now = s := by
    unfold writeW
    simp [h]
  exact ⟨he, by rw [he], by rw [he], by rw [he]⟩

/-- Witness for C10: the writer obtained by closing a fresh writer is closed,
and writing into it changes nothing. -/
theorem writer_write_after_close_witness :
    (closeW (initWriter 64 10000)).closed = true ∧
    (writeW (fun _ => str "x") (closeW (initWriter 64 10000)) witnessEvent 5
        = closeW (initWriter 64 10000) ∧
      (writeW (fun _ => str "x") (closeW (initWriter 64 10000)) witnessEvent 5).buffer
        = (closeW (initWriter 64 10000)).buffer ∧
      (writeW (fun _ => str "x") (closeW (initWriter 64 10000)) witnessEvent 5).file
        = (closeW (initWriter 64 10000)).file ∧
      getMetrics (writeW (fun _ => str "x") (closeW (initWriter 64 10000)) witnessEvent 5)
        = getMetrics (closeW (initWriter 64 10000))) :=
  ⟨by decide, writer_write_after_close _ _ _ _ (by decide)⟩

/-! ### C3 — integrity write/verify round trip -/

/-- C3: for every run id `r`, key `k` and contents `c`, writing a checksum
with key `k` and verifying the unmodified contents with key `k` and run id
`r` yields `valid = true`; verifying with a key `k'` whose HMAC of `c`
differs (which `k' ≠ k` guarantees for HMAC-SHA256 absent a collision)
yields `valid = false`; and verifying under a different run id `r'` yields
`valid = false` (the checksum file's `run_id` must match). -/
theorem integrity_write_verify_roundtrip (hmac : Str → Str → List Nat)
    (c fb r k : Str) (secretFile : Option Str) (now : Str) (r' k' : Str) :
    (verifyTraceIntegrity hmac c r (some k) secretFile
        (some (writeTraceChecksum hmac c fb r (some k) secretFile now))).valid = true ∧
    (hmac k' c ≠ hmac k c →
      (verifyTraceIntegrity hmac c r (some k') secretFile
          (some (writeTraceChecksum hmac c fb r (some k) secretFile now))).valid = false) ∧
    (r' ≠ r →
      (verifyTraceIntegrity hmac c r' (some k) secretFile
          (some (writeTraceChecksum hmac c fb r (some k) secretFile now))).valid = false) := by
  refine ⟨?_, ?_, ?_⟩
  · simp [verifyTraceIntegrity, writeTraceChecksum, computeTraceHmac]
  · intro hne
    by_cases hlen : (hmac k' c).length = (hmac k c).length
    · simp [verifyTraceIntegrity, writeTraceChecksum, computeTraceHmac, hlen, hne]
    · simp [verifyTraceIntegrity, writeTraceChecksum, computeTraceHmac, hlen]
  · intro hne
    simp [verifyTraceIntegrity, writeTraceChecksum, Ne.symm hne]

/-- Witness for C3: a concrete round trip with the key-injective HMAC
stand-in, two distinct keys and two distinct run ids. -/
theorem integrity_write_verify_roundtrip_witness :
    (hmacPair (str "k2") (str "log") ≠ hmacPair (str "k1") (str "log") ∧
      (str "r2" : Str) ≠ str "r1") ∧
    ((verifyTraceIntegrity hmacPair (str "log") (str "r1") (some (str "k1")) none
        (some (writeTraceChecksum hmacPair (str "log") (str "trace.jsonl") (str "r1")
          (some (str "k1")) none (str "t")))).valid = true ∧
      (hmacPair (str "k2") (str "log") ≠ hmacPair (str "k1") (str "log") →
        (verifyTraceIntegrity hmacPair (str "log") (str "r1") (some (str "k2")) none
            (some (writeTraceChecksum hmacPair (str "log") (str "trace.jsonl") (str "r1")
              (some (str "k1")) none (str "t")))).valid = false) ∧
      ((str "r2" : Str) ≠ str "r1" →
        (verifyTraceIntegrity hmacPair (str "log") (str "r2") (some (str "k1")) none
            (some (writeTraceChecksum hmacPair (str "log") (str "trace.jsonl") (str "r1")
              (some (str "k1")) none (str "t")))).valid = false)) :=
  ⟨⟨by decide, by decide⟩,
    integrity_write_verify_roundtrip hmacPair (str "log") (str "trace.jsonl") (str "r1")
      (str "k1") none (str "t") (str "r2") (str "k2")⟩

end AgentCI

namespace AgentCI

/-! ### C4 — key_source vs the key actually used -/

/-- Counterexample for C4: calling `writeTraceChecksum` without the optional
`secret` argument while the project secret file exists produces a checksum
whose HMAC is keyed by the project secret, yet whose `key_source` says
`legacy` — and the HMAC differs from the one the legacy run-id-derived key
would produce. -/
theorem writeChecksum_key_source_counterexample :
    (writeTraceChecksum hmacPair (str "log") (str "trace.jsonl") (str "r1") none
        (some (str "projsecret")) (str "t")).key_source = str "legacy" ∧
    (writeTraceChecksum hmacPair (str "log") (str "trace.jsonl") (str "r1") none
        (some (str "projsecret")) (str "t")).hmacv
      = hmacPair (str "projsecret") (str "log") ∧
    (writeTraceChecksum hmacPair (str "log") (str "trace.jsonl") (str "r1") none
        (some (str "projsecret")) (str "t")).hmacv
      ≠ hmacPair (legacyKey (str "r1")) (str "log") := by
  refine ⟨by decide, by decide, by decide⟩

/-- C4 (amended): `key_source` is `project-secret` exactly when the caller
passed a truthy `secret` argument, and `legacy` otherwise; the HMAC key is
the passed secret when present and otherwise the result of `loadSecret`
(the project secret when the secret file exists, the run-id-derived legacy
key when it does not), so with the argument omitted the record can say
`legacy` while the key is the project secret. -/
theorem writeChecksum_key_source_spec (hmac : Str → Str → List Nat)
    (c fb r : Str) (secretArg secretFile : Option Str) (now : Str) :
    ((writeTraceChecksum hmac c fb r secretArg secretFile now).key_source
        = str "project-secret" ↔ optTruthy secretArg = true) ∧
    ((writeTraceChecksum hmac c fb r secretArg secretFile now).key_source
        = str "legacy" ↔ optTruthy secretArg = false) ∧
    (writeTraceChecksum hmac c fb r secretArg secretFile now).hmacv
      = hmac (secretArg.getD (loadSecret secretFile r)) c ∧
    ((writeSignatureChecksum hmac c fb r secretArg secretFile now).key_source
        = str "project-secret" ↔ optTruthy secretArg = true) ∧
    ((writeSignatureChecksum hmac c fb r secretArg secretFile now).key_source
        = str "legacy" ↔ optTruthy secretArg = false) ∧
    (writeSignatureChecksum hmac c fb r secretArg secretFile now).hmacv
      = hmac (secretArg.getD (loadSecret secretFile r)) c := by
  have hne : (str "project-secret" : Str) ≠ str "legacy" := by decide
  cases h : optTruthy secretArg <;>
    simp [writeTraceChecksum, writeSignatureChecksum, computeTraceHmac, h, hne, hne.symm]

/-! ### C1 — the signature produced by summarizeTrace has eight effect
lists, not ten -/

/-- C1 (code bug evaluation): summarizing a trace holding a single
`net_outbound` event with protocol `https` records only the normalized host
and its eTLD+1.  The resulting signature's `effects` carry exactly the eight
fields of `SignatureEffects` — there are no `net_protocols` or `net_ports`
lists for the event's protocol and port to be inserted into, contrary to the
claim and to the repository's own golden test, which expects
`net_protocols = ['http','https']` and `net_ports = [443, 8080]` from
`summarizeTrace` output. -/
theorem summarizeTrace_net_event_eight_lists :
    summarizeTrace c1Env [str "NET"] plainConfig (str "0.1.0") =
      { meta :=
          { signature_version := str "1.0"
            normalization_rules_version := str "1.0"
            agentci_version := str "0.1.0"
            platform := str "linux-x64"
            adapter := str "node-hook"
            scenario_id := str "default"
            node_version := str "v20.0.0" }
        effects :=
          { fs_writes := []
            fs_reads_external := []
            fs_deletes := []
            net_etld_plus_1 := [str "example.com"]
            net_hosts := [str "example.com"]
            exec_commands := []
            exec_argv := []
            sensitive_keys_accessed := [] } } := by
  decide

end AgentCI

namespace AgentCI

/-! ### C6 — filesystem path normalization is not idempotent -/

/-- C6 (code bug evaluation): `normalizeFsPath` strips only one leading
`./` per application, so on `././a` (with the collapse and redaction rules
off and no globs) the first application yields `./a` and the second yields
`a` — normalization is not idempotent, contrary to the spec's invariant and
to the property asserted by the repository's own
"normalization is idempotent" test. -/
theorem normalizeFsPath_not_idempotent :
    normalizeFsPath plainEnv (str "././a") plainConfig = some (str "./a") ∧
    normalizeFsPath plainEnv (str "./a") plainConfig = some (str "a") ∧
    normalizeFsPath plainEnv (str "./a") plainConfig ≠ some (str "./a") := by
  refine ⟨by decide, by decide, by decide⟩

/-! ### Set/sort helper lemmas -/

theorem mem_setAdd_of_mem {l : List Str} {x y : Str} (h : y ∈ l) : y ∈ setAdd l x := by
  unfold setAdd
  split
  · exact h
  · exact List.mem_append_left _ h

theorem setAdd_nodup {l : List Str} {x : Str} (h : l.Nodup) : (setAdd l x).Nodup := by
  unfold setAdd
  split
  · exact h
  · case isFalse hx => simpa [List.nodup_append] using ⟨h, hx⟩

theorem sortedList_sorted (l : List Str) : List.Sorted (· ≤ ·) (sortedList l) :=
  List.sorted_insertionSort _ _

theorem sortedList_perm (l : List Str) :
    List.Perm (sortedList l) (l.filter (fun v => decide (v ≠ []))) :=
  List.perm_insertionSort _ _

theorem sortedList_nodup {l : List Str} (h : l.Nodup) : (sortedList l).Nodup :=
  ((sortedList_perm l).nodup_iff).2 (List.Nodup.filter _ h)

theorem mem_sortedList {l : List Str} {x : Str} :
    x ∈ sortedList l ↔ x ∈ l ∧ x ≠ [] := by
  rw [(sortedList_perm l).mem_iff, List.mem_filter]
  simp

/-! ### Per-field behaviour of the summarize fold -/

theorem step_fs_writes (env : JsEnv) (config : PolicyConfig) (acc : SignatureEffects)
    (e : TraceEvent) :
    (summarizeStep env config acc e).fs_writes = acc.fs_writes ∨
      ∃ x, (summarizeStep env config acc e).fs_writes = setAdd acc.fs_writes x := by
  unfold summarizeStep
  dsimp only
  repeat' split
  all_goals first | exact Or.inl rfl | exact Or.inr ⟨_, rfl⟩

theorem step_fs_reads (env : JsEnv) (config : PolicyConfig) (acc : SignatureEffects)
    (e : TraceEvent) :
    (summarizeStep env config acc e).fs_reads_external = acc.fs_reads_external ∨
      ∃ x, (summarizeStep env config acc e).fs_reads_external
        = setAdd acc.fs_reads_external x := by
  unfold summarizeStep
  dsimp only
  repeat' split
  all_goals first | exact Or.inl rfl | exact Or.inr ⟨_, rfl⟩

theorem step_fs_deletes (env : JsEnv) (config : PolicyConfig) (acc : SignatureEffects)
    (e : TraceEvent) :
    (summarizeStep env config acc e).fs_deletes = acc.fs_deletes ∨
      ∃ x, (summarizeStep env config acc e).fs_deletes = setAdd acc.fs_deletes x := by
  unfold summarizeStep
  dsimp only
  repeat' split
  all_goals first | exact Or.inl rfl | exact Or.inr ⟨_, rfl⟩

theorem step_net_etld (env : JsEnv) (config : PolicyConfig) (acc : SignatureEffects)
    (e : TraceEvent) :
    (summarizeStep env config acc e).net_etld_plus_1 = acc.net_etld_plus_1 ∨
      ∃ x, (summarizeStep env config acc e).net_etld_plus_1
        = setAdd acc.net_etld_plus_1 x := by
  unfold summarizeStep
  dsimp only
  repeat' split
  all_goals first | exact Or.inl rfl | exact Or.inr ⟨_, rfl⟩

theorem step_net_hosts (env : JsEnv) (config : PolicyConfig) (acc : SignatureEffects)
    (e : TraceEvent) :
    (summarizeStep env config acc e).net_hosts = acc.net_hosts ∨
      ∃ x, (summarizeStep env config acc e).net_hosts = setAdd acc.net_hosts x := by
  unfold summarizeStep
  dsimp only
  repeat' split
  all_goals first | exact Or.inl rfl | exact Or.inr ⟨_, rfl⟩

theorem step_exec_commands (env : JsEnv) (config : PolicyConfig) (acc : SignatureEffects)
    (e : TraceEvent) :
    (summarizeStep env config acc e).exec_commands = acc.exec_commands ∨
      ∃ x, (summarizeStep env config acc e).exec_commands = setAdd acc.exec_commands x := by
  unfold summarizeStep
  dsimp only
  repeat' split
  all_goals first | exact Or.inl rfl | exact Or.inr ⟨_, rfl⟩

theorem step_exec_argv (env : JsEnv) (config : PolicyConfig) (acc : SignatureEffects)
    (e : TraceEvent) :
    (summarizeStep env config acc e).exec_argv = acc.exec_argv ∨
      ∃ x, (summarizeStep env config acc e).exec_argv = setAdd acc.exec_argv x := by
  unfold summarizeStep
  dsimp only
  repeat' split
  all_goals first | exact Or.inl rfl | exact Or.inr ⟨_, rfl⟩

theorem step_sensitive (env : JsEnv) (config : PolicyConfig) (acc : SignatureEffects)
    (e : TraceEvent) :
    (summarizeStep env config acc e).sensitive_keys_accessed = acc.sensitive_keys_accessed ∨
      ∃ x, (summarizeStep env config acc e).sensitive_keys_accessed
        = setAdd acc.sensitive_keys_accessed x := by
  unfold summarizeStep
  dsimp only
  repeat' split
  all_goals first | exact Or.inl rfl | exact Or.inr ⟨_, rfl⟩

end AgentCI

namespace AgentCI

/-- All eight accumulator sets are duplicate-free. -/
def EffectsNodup (e : SignatureEffects) : Prop :=
  e.fs_writes.Nodup ∧ e.fs_reads_external.Nodup ∧ e.fs_deletes.Nodup ∧
  e.net_etld_plus_1.Nodup ∧ e.net_hosts.Nodup ∧ e.exec_commands.Nodup ∧
  e.exec_argv.Nodup ∧ e.sensitive_keys_accessed.Nodup

theorem nodup_of_step_cases {l l' : List Str}
    (hc : l' = l ∨ ∃ x, l' = setAdd l x) (h : l.Nodup) : l'.Nodup := by
  rcases hc with h1 | ⟨x, h1⟩
  · rw [h1]; exact h
  · rw [h1]; exact setAdd_nodup h

theorem summarizeStep_nodup (env : JsEnv) (config : PolicyConfig) (acc : SignatureEffects)
    (e : TraceEvent) (h : EffectsNodup acc) :
    EffectsNodup (summarizeStep env config acc e) := by
  obtain ⟨h1, h2, h3, h4, h5, h6, h7, h8⟩ := h
  exact ⟨nodup_of_step_cases (step_fs_writes env config acc e) h1,
    nodup_of_step_cases (step_fs_reads env config acc e) h2,
    nodup_of_step_cases (step_fs_deletes env config acc e) h3,
    nodup_of_step_cases (step_net_etld env config acc e) h4,
    nodup_of_step_cases (step_net_hosts env config acc e) h5,
    nodup_of_step_cases (step_exec_commands env config acc e) h6,
    nodup_of_step_cases (step_exec_argv env config acc e) h7,
    nodup_of_step_cases (step_sensitive env config acc e) h8⟩

theorem foldl_summarizeStep_nodup (env : JsEnv) (config : PolicyConfig)
    (events : List TraceEvent) (acc : SignatureEffects) (h : EffectsNodup acc) :
    EffectsNodup (events.foldl (summarizeStep env config) acc) := by
  induction events generalizing acc with
  | nil => exact h
  | cons e es ih => exact ih _ (summarizeStep_nodup env config acc e h)

/-- C2: every effect list of a signature produced by `summarizeTrace` is
sorted under the total lexicographic order on code-unit sequences and
contains no duplicates.  (The produced schema has eight lists, all of
strings — see C1; the claim's `net_ports` clause concerns a list this
schema does not carry.) -/
theorem summarizeTrace_sorted_nodup (env : JsEnv) (lines : List Str)
    (config : PolicyConfig) (v : Str) :
    (List.Sorted (· ≤ ·) (summarizeTrace env lines config v).effects.fs_writes ∧
      (summarizeTrace env lines config v).effects.fs_writes.Nodup) ∧
    (List.Sorted (· ≤ ·) (summarizeTrace env lines config v).effects.fs_reads_external ∧
      (summarizeTrace env lines config v).effects.fs_reads_external.Nodup) ∧
    (List.Sorted (· ≤ ·) (summarizeTrace env lines config v).effects.fs_deletes ∧
      (summarizeTrace env lines config v).effects.fs_deletes.Nodup) ∧
    (List.Sorted (· ≤ ·) (summarizeTrace env lines config v).effects.net_etld_plus_1 ∧
      (summarizeTrace env lines config v).effects.net_etld_plus_1.Nodup) ∧
    (List.Sorted (· ≤ ·) (summarizeTrace env lines config v).effects.net_hosts ∧
      (summarizeTrace env lines config v).effects.net_hosts.Nodup) ∧
    (List.Sorted (· ≤ ·) (summarizeTrace env lines config v).effects.exec_commands ∧
      (summarizeTrace env lines config v).effects.exec_commands.Nodup) ∧
    (List.Sorted (· ≤ ·) (summarizeTrace env lines config v).effects.exec_argv ∧
      (summarizeTrace env lines config v).effects.exec_argv.Nodup) ∧
    (List.Sorted (· ≤ ·) (summarizeTrace env lines config v).effects.sensitive_keys_accessed ∧
      (summarizeTrace env lines config v).effects.sensitive_keys_accessed.Nodup) := by
  have hnd : EffectsNodup
      ((readJsonl env lines).foldl (summarizeStep env config) emptyEffects) :=
    foldl_summarizeStep_nodup env config _ emptyEffects
      ⟨List.nodup_nil, List.nodup_nil, List.nodup_nil, List.nodup_nil,
        List.nodup_nil, List.nodup_nil, List.nodup_nil, List.nodup_nil⟩
  obtain ⟨h1, h2, h3, h4, h5, h6, h7, h8⟩ := hnd
  unfold summarizeTrace
  exact ⟨⟨sortedList_sorted _, sortedList_nodup h1⟩,
    ⟨sortedList_sorted _, sortedList_nodup h2⟩,
    ⟨sortedList_sorted _, sortedList_nodup h3⟩,
    ⟨sortedList_sorted _, sortedList_nodup h4⟩,
    ⟨sortedList_sorted _, sortedList_nodup h5⟩,
    ⟨sortedList_sorted _, sortedList_nodup h6⟩,
    ⟨sortedList_sorted _, sortedList_nodup h7⟩,
    ⟨sortedList_sorted _, sortedList_nodup h8⟩⟩

end AgentCI

namespace AgentCI

/-! ### C7 — summarization is monotone under log append -/

theorem readJsonl_cons (env : JsEnv) (l : Str) (ls : List Str) :
    readJsonl env (l :: ls) =
      if jsTrim l = [] then readJsonl env ls
      else
        match env.parseEvent (jsTrim l) with
        | some parsed => parsed :: readJsonl env ls
        | none => readJsonl env ls := rfl

theorem readJsonl_append (env : JsEnv) (l1 l2 : List Str) :
    readJsonl env (l1 ++ l2) = readJsonl env l1 ++ readJsonl env l2 := by
  induction l1 with
  | nil => rfl
  | cons l ls ih =>
    rw [List.cons_append, readJsonl_cons, readJsonl_cons]
    split
    · exact ih
    · cases env.parseEvent (jsTrim l) <;> simp [ih]

theorem mem_of_step_cases {l l' : List Str} {y : Str}
    (hc : l' = l ∨ ∃ x, l' = setAdd l x) (h : y ∈ l) : y ∈ l' := by
  rcases hc with h1 | ⟨x, h1⟩
  · rw [h1]; exact h
  · rw [h1]; exact mem_setAdd_of_mem h

/-- Membership in every accumulator field is preserved by the fold. -/
def EffectsSub (a b : SignatureEffects) : Prop :=
  (∀ y, y ∈ a.fs_writes → y ∈ b.fs_writes) ∧
  (∀ y, y ∈ a.fs_reads_external → y ∈ b.fs_reads_external) ∧
  (∀ y, y ∈ a.fs_deletes → y ∈ b.fs_deletes) ∧
  (∀ y, y ∈ a.net_etld_plus_1 → y ∈ b.net_etld_plus_1) ∧
  (∀ y, y ∈ a.net_hosts → y ∈ b.net_hosts) ∧
  (∀ y, y ∈ a.exec_commands → y ∈ b.exec_commands) ∧
  (∀ y, y ∈ a.exec_argv → y ∈ b.exec_argv) ∧
  (∀ y, y ∈ a.sensitive_keys_accessed → y ∈ b.sensitive_keys_accessed)

theorem effectsSub_step (env : JsEnv) (config : PolicyConfig) (acc : SignatureEffects)
    (e : TraceEvent) : EffectsSub acc (summarizeStep env config acc e) :=
  ⟨fun _ h => mem_of_step_cases (step_fs_writes env config acc e) h,
    fun _ h => mem_of_step_cases (step_fs_reads env config acc e) h,
    fun _ h => mem_of_step_cases (step_fs_deletes env config acc e) h,
    fun _ h => mem_of_step_cases (step_net_etld env config acc e) h,
    fun _ h => mem_of_step_cases (step_net_hosts env config acc e) h,
    fun _ h => mem_of_step_cases (step_exec_commands env config acc e) h,
    fun _ h => mem_of_step_cases (step_exec_argv env config acc e) h,
    fun _ h => mem_of_step_cases (step_sensitive env config acc e) h⟩

theorem effectsSub_rfl (a : SignatureEffects) : EffectsSub a a :=
  ⟨fun _ h => h, fun _ h => h, fun _ h => h, fun _ h => h,
    fun _ h => h, fun _ h => h, fun _ h => h, fun _ h => h⟩

theorem effectsSub_trans {a b c : SignatureEffects}
    (h1 : EffectsSub a b) (h2 : EffectsSub b c) : EffectsSub a c :=
  ⟨fun y h => h2.1 y (h1.1 y h),
    fun y h => h2.2.1 y (h1.2.1 y h),
    fun y h => h2.2.2.1 y (h1.2.2.1 y h),
    fun y h => h2.2.2.2.1 y (h1.2.2.2.1 y h),
    fun y h => h2.2.2.2.2.1 y (h1.2.2.2.2.1 y h),
    fun y h => h2.2.2.2.2.2.1 y (h1.2.2.2.2.2.1 y h),
    fun y h => h2.2.2.2.2.2.2.1 y (h1.2.2.2.2.2.2.1 y h),
    fun y h => h2.2.2.2.2.2.2.2 y (h1.2.2.2.2.2.2.2 y h)⟩

theorem effectsSub_foldl (env : JsEnv) (config : PolicyConfig)
    (events : List TraceEvent) (acc : SignatureEffects) :
    EffectsSub acc (events.foldl (summarizeStep env config) acc) := by
  induction events generalizing acc with
  | nil => exact effectsSub_rfl acc
  | cons e es ih =>
    exact effectsSub_trans (effectsSub_step env config acc e)
      (ih (summarizeStep env config acc e))

/-- C7: summarization is monotone under log append — every element of every
effect list of `summarizeTrace` over `L1` also appears in the corresponding
effect list of `summarizeTrace` over `L1 ++ L2` (same policy config and tool
version). -/
theorem summarizeTrace_monotone_append (env : JsEnv) (l1 l2 : List Str)
    (config : PolicyConfig) (v : Str) (x : Str) :
    (x ∈ (summarizeTrace env l1 config v).effects.fs_writes →
      x ∈ (summarizeTrace env (l1 ++ l2) config v).effects.fs_writes) ∧
    (x ∈ (summarizeTrace env l1 config v).effects.fs_reads_external →
      x ∈ (summarizeTrace env (l1 ++ l2) config v).effects.fs_reads_external) ∧
    (x ∈ (summarizeTrace env l1 config v).effects.fs_deletes →
      x ∈ (summarizeTrace env (l1 ++ l2) config v).effects.fs_deletes) ∧
    (x ∈ (summarizeTrace env l1 config v).effects.net_etld_plus_1 →
      x ∈ (summarizeTrace env (l1 ++ l2) config v).effects.net_etld_plus_1) ∧
    (x ∈ (summarizeTrace env l1 config v).effects.net_hosts →
      x ∈ (summarizeTrace env (l1 ++ l2) config v).effects.net_hosts) ∧
    (x ∈ (summarizeTrace env l1 config v).effects.exec_commands →
      x ∈ (summarizeTrace env (l1 ++ l2) config v).effects.exec_commands) ∧
    (x ∈ (summarizeTrace env l1 config v).effects.exec_argv →
      x ∈ (summarizeTrace env (l1 ++ l2) config v).effects.exec_argv) ∧
    (x ∈ (summarizeTrace env l1 config v).effects.sensitive_keys_accessed →
      x ∈ (summarizeTrace env (l1 ++ l2) config v).effects.sensitive_keys_accessed) := by
  have hfold :
      ((readJsonl env (l1 ++ l2)).foldl (summarizeStep env config) emptyEffects)
        = (readJsonl env l2).foldl (summarizeStep env config)
            ((readJsonl env l1).foldl (summarizeStep env config) emptyEffects) := by
    rw [readJsonl_append, List.foldl_append]
  have hsub : EffectsSub
      ((readJsonl env l1).foldl (summarizeStep env config) emptyEffects)
      ((readJsonl env (l1 ++ l2)).foldl (summarizeStep env config) emptyEffects) := by
    rw [hfold]
    exact effectsSub_foldl env config _ _
  unfold summarizeTrace
  dsimp only
  obtain ⟨s1, s2, s3, s4, s5, s6, s7, s8⟩ := hsub
  refine ⟨?_, ?_, ?_, ?_, ?_, ?_, ?_, ?_⟩ <;>
    · intro hx
      rw [mem_sortedList] at hx ⊢
      first
        | exact ⟨s1 x hx.1, hx.2⟩ | exact ⟨s2 x hx.1, hx.2⟩ | exact ⟨s3 x hx.1, hx.2⟩
        | exact ⟨s4 x hx.1, hx.2⟩ | exact ⟨s5 x hx.1, hx.2⟩ | exact ⟨s6 x hx.1, hx.2⟩
        | exact ⟨s7 x hx.1, hx.2⟩ | exact ⟨s8 x hx.1, hx.2⟩

/-- Witness for C7: the host recorded from a one-line log still appears after
appending a second copy of the line. -/
theorem summarizeTrace_monotone_append_witness :
    (str "example.com" ∈ (summarizeTrace c1Env [str "NET"] plainConfig
        (str "0.1.0")).effects.net_hosts) ∧
    (str "example.com" ∈ (summarizeTrace c1Env ([str "NET"] ++ [str "NET"]) plainConfig
        (str "0.1.0")).effects.net_hosts) :=
  ⟨by decide,
    (summarizeTrace_monotone_append c1Env [str "NET"] [str "NET"] plainConfig
      (str "0.1.0") (str "example.com")).2.2.2.2.1 (by decide)⟩

end AgentCI

namespace AgentCI

/-! ### Decimal printing round trip -/

theorem natToStr_digits (n : Nat) : (natToStr n).all isDigitChar = true := by
  induction n using Nat.strong_induction_on with
  | _ n ih =>
    rw [natToStr]
    split
    · case isTrue h =>
      simp only [List.all_cons, List.all_nil, Bool.and_true]
      unfold isDigitChar
      simp <;> omega
    · case isFalse h =>
      rw [List.all_append, Bool.and_eq_true]
      refine ⟨ih _ (Nat.div_lt_self (by omega) (by omega)), ?_⟩
      simp only [List.all_cons, List.all_nil, Bool.and_true]
      unfold isDigitChar
      simp <;> omega

theorem natToStr_ne_nil (n : Nat) : natToStr n ≠ [] := by
  rw [natToStr]
  split
  · simp
  · simp

theorem parseNatDigits_append_digit (l : Str) (d : Nat) :
    parseNatDigits (l ++ [d]) = parseNatDigits l * 10 + (d - 48) := by
  unfold parseNatDigits
  rw [List.foldl_append]
  rfl

theorem parseNatDigits_natToStr (n : Nat) : parseNatDigits (natToStr n) = n := by
  induction n using Nat.strong_induction_on with
  | _ n ih =>
    rw [natToStr]
    split
    · case isTrue h =>
      unfold parseNatDigits
      simp <;> omega
    · case isFalse h =>
      rw [parseNatDigits_append_digit, ih _ (Nat.div_lt_self (by omega) (by omega))]
      omega

theorem natToStr_head_digit (n : Nat) :
    ∃ d t, natToStr n = d :: t ∧ 48 ≤ d ∧ d ≤ 57 := by
  have hall := natToStr_digits n
  have hne := natToStr_ne_nil n
  cases hh : natToStr n with
  | nil => exact absurd hh hne
  | cons d t =>
    refine ⟨d, t, rfl, ?_⟩
    rw [hh, List.all_cons, Bool.and_eq_true] at hall
    have := hall.1
    unfold isDigitChar at this
    simp at this
    omega

theorem jsNumberOfString_intToStr (i : Int) : jsNumberOfString (intToStr i) = some i := by
  unfold intToStr
  split
  · case isTrue h =>
    unfold jsNumberOfString
    have hne := natToStr_ne_nil i.natAbs
    have hall := natToStr_digits i.natAbs
    simp only [if_pos rfl, hne, ne_eq, not_false_iff, hall, and_self, if_true]
    rw [parseNatDigits_natToStr]
    congr 1
    omega
  · case isFalse h =>
    obtain ⟨d, t, hh, hd1, hd2⟩ := natToStr_head_digit i.toNat
    rw [hh]
    unfold jsNumberOfString
    have hd45 : d ≠ 45 := by omega
    have hall : (d :: t).all isDigitChar = true := by
      rw [← hh]; exact natToStr_digits i.toNat
    simp only [hd45, if_false, hall, if_true]
    rw [← hh, parseNatDigits_natToStr]
    congr 1
    omega

theorem intToStr_injective : Function.Injective intToStr := by
  intro a b hab
  have ha := jsNumberOfString_intToStr a
  have hb := jsNumberOfString_intToStr b
  rw [hab, hb] at ha
  exact (Option.some_inj.1 ha).symm

end AgentCI

namespace AgentCI

/-! ### C5 — the diff engine is set difference preserving order -/

theorem reduceOption_eq_filterMap (l : List (Option α)) : l.reduceOption = l.filterMap id :=
  rfl

theorem diffSet_ports_roundtrip (P B : List Int) :
    (((P.map intToStr).filter (fun v => decide (v ∉ B.map intToStr))).map
        jsNumberOfString).reduceOption
      = P.filter (fun p => decide (p ∉ B)) := by
  rw [List.filter_map]
  have hpred : ((fun v => decide (v ∉ B.map intToStr)) ∘ intToStr)
      = fun p => decide (p ∉ B) := by
    funext p
    exact decide_eq_decide.mpr (not_congr (List.mem_map_of_injective intToStr_injective))
  rw [hpred, List.map_map, reduceOption_eq_filterMap, List.filterMap_map]
  have hcomp : (id ∘ jsNumberOfString ∘ intToStr) = (some : Int → Option Int) := by
    funext p
    simp [jsNumberOfString_intToStr]
  rw [hcomp, List.filterMap_some]

theorem driftResult_ext {d e : DriftResult}
    (h1 : d.fs_writes = e.fs_writes) (h2 : d.fs_reads_external = e.fs_reads_external)
    (h3 : d.fs_deletes = e.fs_deletes) (h4 : d.net_protocols = e.net_protocols)
    (h5 : d.net_etld_plus_1 = e.net_etld_plus_1) (h6 : d.net_hosts = e.net_hosts)
    (h7 : d.net_ports = e.net_ports) (h8 : d.exec_commands = e.exec_commands)
    (h9 : d.exec_argv = e.exec_argv)
    (h10 : d.sensitive_keys_accessed = e.sensitive_keys_accessed) : d = e := by
  cases d
  cases e
  simp_all

/-- The ten drift fields of `diffSignatures`, each as an order-preserving
filter of the current list against baseline membership. -/
theorem diffSignatures_drift_fields (b : Option RichSignature) (cur : RichSignature) :
    (diffSignatures b cur).drift.fs_writes
      = cur.effects.fs_writes.filter
          (fun v => decide (v ∉ (b.map (·.effects.fs_writes)).getD [])) ∧
    (diffSignatures b cur).drift.fs_reads_external
      = cur.effects.fs_reads_external.filter
          (fun v => decide (v ∉ (b.map (·.effects.fs_reads_external)).getD [])) ∧
    (diffSignatures b cur).drift.fs_deletes
      = cur.effects.fs_deletes.filter
          (fun v => decide (v ∉ (b.map (·.effects.fs_deletes)).getD [])) ∧
    (diffSignatures b cur).drift.net_protocols
      = (cur.effects.net_protocols.getD []).filter
          (fun v => decide (v ∉ (b.bind (·.effects.net_protocols)).getD [])) ∧
    (diffSignatures b cur).drift.net_etld_plus_1
      = cur.effects.net_etld_plus_1.filter
          (fun v => decide (v ∉ (b.map (·.effects.net_etld_plus_1)).getD [])) ∧
    (diffSignatures b cur).drift.net_hosts
      = cur.effects.net_hosts.filter
          (fun v => decide (v ∉ (b.map (·.effects.net_hosts)).getD [])) ∧
    (diffSignatures b cur).drift.net_ports
      = (cur.effects.net_ports.getD []).filter
          (fun p => decide (p ∉ (b.bind (·.effects.net_ports)).getD [])) ∧
    (diffSignatures b cur).drift.exec_commands
      = cur.effects.exec_commands.filter
          (fun v => decide (v ∉ (b.map (·.effects.exec_commands)).getD [])) ∧
    (diffSignatures b cur).drift.exec_argv
      = cur.effects.exec_argv.filter
          (fun v => decide (v ∉ (b.map (·.effects.exec_argv)).getD [])) ∧
    (diffSignatures b cur).drift.sensitive_keys_accessed
      = cur.effects.sensitive_keys_accessed.filter
          (fun v => decide (v ∉ (b.map (·.effects.sensitive_keys_accessed)).getD [])) := by
  refine ⟨rfl, rfl, rfl, rfl, rfl, rfl, ?_, rfl, rfl, rfl⟩
  show ((((cur.effects.net_ports.getD []).map intToStr).filter _).map _).reduceOption = _
  have hbase :
      (b.bind (fun bb => bb.effects.net_ports.map (·.map intToStr))).getD []
        = ((b.bind (·.effects.net_ports)).getD []).map intToStr := by
    cases b with
    | none => rfl
    | some bb => cases h : bb.effects.net_ports <;> simp [h]
  calc ((((cur.effects.net_ports.getD []).map intToStr).filter
          (fun v => decide (v ∉ (b.bind (fun bb =>
            bb.effects.net_ports.map (·.map intToStr))).getD []))).map
        jsNumberOfString).reduceOption
      = ((((cur.effects.net_ports.getD []).map intToStr).filter
          (fun v => decide (v ∉ ((b.bind (·.effects.net_ports)).getD []).map
            intToStr))).map jsNumberOfString).reduceOption := by rw [hbase]
    _ = (cur.effects.net_ports.getD []).filter
          (fun p => decide (p ∉ (b.bind (·.effects.net_ports)).getD [])) :=
        diffSet_ports_roundtrip _ _

/-- C5: for every baseline and current signature, each drift field of
`diffSignatures` is exactly the set difference current minus baseline,
preserving the order of the current list (for `net_ports` via the
`String`/`Number` round trip); with a `null` baseline every current element
is drift; and diffing a signature against itself leaves every drift field
empty. -/
theorem diffSignatures_set_difference :
    (∀ (b : Option RichSignature) (cur : RichSignature),
      (diffSignatures b cur).drift.fs_writes
        = cur.effects.fs_writes.filter
            (fun v => decide (v ∉ (b.map (·.effects.fs_writes)).getD [])) ∧
      (diffSignatures b cur).drift.fs_reads_external
        = cur.effects.fs_reads_external.filter
            (fun v => decide (v ∉ (b.map (·.effects.fs_reads_external)).getD [])) ∧
      (diffSignatures b cur).drift.fs_deletes
        = cur.effects.fs_deletes.filter
            (fun v => decide (v ∉ (b.map (·.effects.fs_deletes)).getD [])) ∧
      (diffSignatures b cur).drift.net_protocols
        = (cur.effects.net_protocols.getD []).filter
            (fun v => decide (v ∉ (b.bind (·.effects.net_protocols)).getD [])) ∧
      (diffSignatures b cur).drift.net_etld_plus_1
        = cur.effects.net_etld_plus_1.filter
            (fun v => decide (v ∉ (b.map (·.effects.net_etld_plus_1)).getD [])) ∧
      (diffSignatures b cur).drift.net_hosts
        = cur.effects.net_hosts.filter
            (fun v => decide (v ∉ (b.map (·.effects.net_hosts)).getD [])) ∧
      (diffSignatures b cur).drift.net_ports
        = (cur.effects.net_ports.getD []).filter
            (fun p => decide (p ∉ (b.bind (·.effects.net_ports)).getD [])) ∧
      (diffSignatures b cur).drift.exec_commands
        = cur.effects.exec_commands.filter
            (fun v => decide (v ∉ (b.map (·.effects.exec_commands)).getD [])) ∧
      (diffSignatures b cur).drift.exec_argv
        = cur.effects.exec_argv.filter
            (fun v => decide (v ∉ (b.map (·.effects.exec_argv)).getD [])) ∧
      (diffSignatures b cur).drift.sensitive_keys_accessed
        = cur.effects.sensitive_keys_accessed.filter
            (fun v => decide (v ∉ (b.map (·.effects.sensitive_keys_accessed)).getD []))) ∧
    (∀ cur : RichSignature,
      (diffSignatures none cur).drift =
        { fs_writes := cur.effects.fs_writes
          fs_reads_external := cur.effects.fs_reads_external
          fs_deletes := cur.effects.fs_deletes
          net_protocols := cur.effects.net_protocols.getD []
          net_etld_plus_1 := cur.effects.net_etld_plus_1
          net_hosts := cur.effects.net_hosts
          net_ports := cur.effects.net_ports.getD []
          exec_commands := cur.effects.exec_commands
          exec_argv := cur.effects.exec_argv
          sensitive_keys_accessed := cur.effects.sensitive_keys_accessed }) ∧
    (∀ S : RichSignature,
      (diffSignatures (some S) S).drift =
        { fs_writes := [], fs_reads_external := [], fs_deletes := []
          net_protocols := [], net_etld_plus_1 := [], net_hosts := []
          net_ports := [], exec_commands := [], exec_argv := []
          sensitive_keys_accessed := [] }) := by
  refine ⟨diffSignatures_drift_fields, ?_, ?_⟩
  · intro cur
    obtain ⟨e1, e2, e3, e4, e5, e6, e7, e8, e9, e10⟩ :=
      diffSignatures_drift_fields none cur
    exact driftResult_ext
      (by rw [e1]; simp) (by rw [e2]; simp) (by rw [e3]; simp) (by rw [e4]; simp)
      (by rw [e5]; simp) (by rw [e6]; simp) (by rw [e7]; simp) (by rw [e8]; simp)
      (by rw [e9]; simp) (by rw [e10]; simp)
  · intro S
    obtain ⟨e1, e2, e3, e4, e5, e6, e7, e8, e9, e10⟩ :=
      diffSignatures_drift_fields (some S) S
    exact driftResult_ext
      (by rw [e1]; simp) (by rw [e2]; simp) (by rw [e3]; simp) (by rw [e4]; simp)
      (by rw [e5]; simp) (by rw [e6]; simp) (by rw [e7]; simp) (by rw [e8]; simp)
      (by rw [e9]; simp) (by rw [e10]; simp)

end AgentCI

namespace AgentCI

/-! ### C8 — network host BLOCK findings -/

/-- Recognizes the host drift findings of the evaluator's network section
(their messages, and only theirs, start with `Network Drift`). -/
def isHostDriftFinding (f : PolicyFinding) : Bool :=
  (str "Network Drift").isPrefixOf f.message

theorem isPrefixOf_append_right (pre l r : Str) (h : pre.isPrefixOf l = true) :
    pre.isPrefixOf (l ++ r) = true := by
  rw [List.isPrefixOf_iff_prefix] at h ⊢
  exact h.trans (List.prefix_append l r)

theorem not_isPrefixOf_append (pre l r : Str) (hlen : pre.length ≤ l.length)
    (h : pre.isPrefixOf l = false) : pre.isPrefixOf (l ++ r) = false := by
  rw [Bool.eq_false_iff] at h ⊢
  intro hc
  apply h
  rw [List.isPrefixOf_iff_prefix] at hc ⊢
  rw [List.prefix_iff_eq_take] at hc ⊢
  rw [hc, List.take_append_eq_append_take]
  have h0 : pre.length - l.length = 0 := by omega
  simp [h0, List.take_of_length_le, Nat.le_trans (List.length_take_le _ _) (Nat.le_refl _)]

theorem isHostDrift_netHostBlockFinding (host etld : Str) :
    isHostDriftFinding (netHostBlockFinding host etld) = true := by
  unfold isHostDriftFinding netHostBlockFinding
  simp only [List.append_assoc]
  exact isPrefixOf_append_right _ _ _ (by decide)

theorem fsWriteFindings_not_drift (env : JsEnv) (config : PolicyConfig)
    (workspaceRoot writePath : Str) :
    ∀ f ∈ fsWriteFindings env config workspaceRoot writePath,
      isHostDriftFinding f = false := by
  intro f hf
  unfold fsWriteFindings at hf
  dsimp only at hf
  repeat' split at hf
  all_goals
    first
      | exact absurd hf (List.not_mem_nil f)
      | (rcases List.mem_singleton.1 hf with rfl
         unfold isHostDriftFinding
         simp only [List.append_assoc]
         exact not_isPrefixOf_append _ _ _ (by decide) (by decide))

theorem netProtocolFindings_not_drift (config : PolicyConfig) (protocol : Str) :
    ∀ f ∈ netProtocolFindings config protocol, isHostDriftFinding f = false := by
  intro f hf
  unfold netProtocolFindings at hf
  dsimp only at hf
  repeat' split at hf
  all_goals
    first
      | exact absurd hf (List.not_mem_nil f)
      | (rcases List.mem_singleton.1 hf with rfl
         unfold isHostDriftFinding
         simp only [List.append_assoc]
         exact not_isPrefixOf_append _ _ _ (by decide) (by decide))

theorem netPortFindings_not_drift (config : PolicyConfig) (port : Int) :
    ∀ f ∈ netPortFindings config port, isHostDriftFinding f = false := by
  intro f hf
  unfold netPortFindings at hf
  repeat' split at hf
  all_goals
    first
      | exact absurd hf (List.not_mem_nil f)
      | (rcases List.mem_singleton.1 hf with rfl
         unfold isHostDriftFinding
         simp only [List.append_assoc]
         exact not_isPrefixOf_append _ _ _ (by decide) (by decide))

theorem execCommandFindings_not_drift (config : PolicyConfig) (cmd : Str) :
    ∀ f ∈ execCommandFindings config cmd, isHostDriftFinding f = false := by
  intro f hf
  unfold execCommandFindings at hf
  repeat' split at hf
  all_goals
    first
      | exact absurd hf (List.not_mem_nil f)
      | (rcases List.mem_singleton.1 hf with rfl
         unfold isHostDriftFinding
         simp only [List.append_assoc]
         exact not_isPrefixOf_append _ _ _ (by decide) (by decide))

theorem sensitiveFindings_not_drift (env : JsEnv) (config : PolicyConfig) (s : Str) :
    ∀ f ∈ sensitiveFindings env config s, isHostDriftFinding f = false := by
  intro f hf
  unfold sensitiveFindings at hf
  dsimp only at hf
  repeat' split at hf
  all_goals
    first
      | exact absurd hf (List.not_mem_nil f)
      | (rcases List.mem_singleton.1 hf with rfl
         unfold isHostDriftFinding
         simp only [List.append_assoc]
         exact not_isPrefixOf_append _ _ _ (by decide) (by decide))

theorem filter_drift_flatMap_eq_nil {α : Type} {l : List α} {gen : α → List PolicyFinding}
    (h : ∀ a ∈ l, ∀ f ∈ gen a, isHostDriftFinding f = false) :
    (l.flatMap gen).filter isHostDriftFinding = [] := by
  rw [List.filter_eq_nil_iff]
  intro f hf
  obtain ⟨a, ha, hfa⟩ := List.mem_flatMap.1 hf
  simp [h a ha f hfa]

end AgentCI

namespace AgentCI

theorem filter_netHost_section (env : JsEnv) (config : PolicyConfig) (hosts : List Str) :
    ((hosts.flatMap (netHostFindings env config)).filter isHostDriftFinding)
      = (hosts.filter (fun host => decide
            (¬matchHost config.policy.network.allow_hosts host = true ∧
              ¬toLower (toEtldPlus1 env host)
                  ∈ config.policy.network.allow_etld_plus_1.map toLower ∧
              (config.policy.network.enforce_allowlist = true ∨
                config.policy.network.allow_hosts ≠ [] ∨
                config.policy.network.allow_etld_plus_1 ≠ [])))).map
          (fun host => netHostBlockFinding host (toLower (toEtldPlus1 env host))) := by
  induction hosts with
  | nil => rfl
  | cons h t ih =>
    rw [List.flatMap_cons, List.filter_append, ih, List.filter_cons]
    unfold netHostFindings
    dsimp only
    split
    · case isTrue hc =>
      have hd : decide
          (¬matchHost config.policy.network.allow_hosts h = true ∧
            ¬toLower (toEtldPlus1 env h)
                ∈ config.policy.network.allow_etld_plus_1.map toLower ∧
            (config.policy.network.enforce_allowlist = true ∨
              config.policy.network.allow_hosts ≠ [] ∨
              config.policy.network.allow_etld_plus_1 ≠ [])) = true := by
        exact decide_eq_true hc
      rw [if_pos hd]
      simp [isHostDrift_netHostBlockFinding]
    · case isFalse hc =>
      have hd : decide
          (¬matchHost config.policy.network.allow_hosts h = true ∧
            ¬toLower (toEtldPlus1 env h)
                ∈ config.policy.network.allow_etld_plus_1.map toLower ∧
            (config.policy.network.enforce_allowlist = true ∨
              config.policy.network.allow_hosts ≠ [] ∨
              config.policy.network.allow_etld_plus_1 ≠ [])) = false := by
        exact decide_eq_false hc
      rw [hd]
      simp

end AgentCI

namespace AgentCI

/-- C8: the evaluator emits a network host BLOCK finding (a `Network Drift`
finding) for exactly those hosts of the signature that are not matched by
`allow_hosts`, whose lower-cased eTLD+1 is not in `allow_etld_plus_1`, and
for which `enforce_allowlist` is set or at least one of the two allow lists
is non-empty; and a host matches `allow_hosts` by case-insensitive exact
comparison or by `*.suffix` wildcard-prefix (suffix) semantics. -/
theorem evaluatePolicy_network_host_blocks (env : JsEnv) (signature : RichSignature)
    (config : PolicyConfig) :
    ((evaluatePolicy env signature config).filter isHostDriftFinding
      = (signature.effects.net_hosts.filter (fun host => decide
            (¬matchHost config.policy.network.allow_hosts host = true ∧
              ¬toLower (toEtldPlus1 env host)
                  ∈ config.policy.network.allow_etld_plus_1.map toLower ∧
              (config.policy.network.enforce_allowlist = true ∨
                config.policy.network.allow_hosts ≠ [] ∨
                config.policy.network.allow_etld_plus_1 ≠ [])))).map
          (fun host => netHostBlockFinding host (toLower (toEtldPlus1 env host)))) ∧
    (∀ (patterns : List Str) (host : Str),
      matchHost patterns host = patterns.any fun pattern =>
        if (toLower pattern).take 2 = str "*." then
          ((toLower pattern).drop 1).isSuffixOf (toLower host)
        else decide (toLower host = toLower pattern)) := by
  constructor
  · unfold evaluatePolicy
    dsimp only
    rw [List.filter_append, List.filter_append, List.filter_append,
      List.filter_append, List.filter_append]
    rw [filter_drift_flatMap_eq_nil
        (fun a ha => fsWriteFindings_not_drift env config _ a),
      filter_drift_flatMap_eq_nil
        (fun a ha => netProtocolFindings_not_drift config a),
      filter_drift_flatMap_eq_nil
        (fun a ha => netPortFindings_not_drift config a),
      filter_drift_flatMap_eq_nil
        (fun a ha => execCommandFindings_not_drift config a),
      filter_drift_flatMap_eq_nil
        (fun a ha => sensitiveFindings_not_drift env config a),
      filter_netHost_section env config]
    simp
  · intro patterns host
    unfold matchHost
    cases patterns with
    | nil => rfl
    | cons p ps => simp

end AgentCI

namespace AgentCI

/-! ### C9 — cosine similarity -/

/-- An instantiation of `Math.sqrt` for the closed theorems: it agrees with
IEEE sqrt at the arguments those theorems evaluate it at (0 and 1, where
IEEE sqrt is exact). -/
def ratSqrt (q : ℚ) : ℚ := if q = 1 then 1 else 0

/-- Metadata shared by the concrete signatures below. -/
def plainMeta : SignatureMeta :=
  { signature_version := str "1.0", normalization_rules_version := str "1.0"
    agentci_version := str "0.1.0", platform := str "linux-x64"
    adapter := str "node-hook", scenario_id := str "default"
    node_version := str "v20.0.0" }

/-- A signature with no effects at all. -/
def emptyRichSig : RichSignature :=
  { meta := plainMeta
    effects :=
      { fs_writes := [], fs_reads_external := [], fs_deletes := []
        net_protocols := none, net_etld_plus_1 := [], net_hosts := []
        net_ports := none, exec_commands := [], exec_argv := []
        sensitive_keys_accessed := [] } }

/-- A signature whose only effect is one file write. -/
def oneWriteRichSig : RichSignature :=
  { meta := plainMeta
    effects :=
      { fs_writes := [str "a"], fs_reads_external := [], fs_deletes := []
        net_protocols := none, net_etld_plus_1 := [], net_hosts := []
        net_ports := none, exec_commands := [], exec_argv := []
        sensitive_keys_accessed := [] } }

/-- Counterexample for C9: over the one-token vocabulary `[fs_w:a]`, the
signature with no effects vectorizes to the zero vector (its norm is 0, so
normalization is skipped), and the cosine similarity of that vector with
itself is 0 — two identical signatures that do not yield similarity 1.0. -/
theorem cosineSimilarity_identical_not_one :
    cosineSimilarity
        (vectorizeSignature ratSqrt emptyRichSig { tokens := [str "fs_w:a"] })
        (vectorizeSignature ratSqrt emptyRichSig { tokens := [str "fs_w:a"] }) = 0 ∧
    (0 : ℚ) ≠ 1 := by
  constructor
  · have hraw : rawVector emptyRichSig { tokens := [str "fs_w:a"] } = [0] := by
      simp [rawVector, sigTokens, emptyRichSig]
    have hvec : vectorizeSignature ratSqrt emptyRichSig { tokens := [str "fs_w:a"] }
        = [0] := by
      unfold vectorizeSignature
      rw [hraw]
      norm_num [ratSqrt]
    rw [hvec]
    norm_num [cosineSimilarity]
  · norm_num

end AgentCI

namespace AgentCI

theorem sum_sq_div (v : List ℚ) (n : ℚ) :
    (List.zipWith (fun x y => x * y) (v.map (fun x => x / n)) (v.map (fun x => x / n))).sum
      = ((v.map (fun x => x * x)).sum) / (n * n) := by
  induction v with
  | nil => simp
  | cons x xs ih =>
    simp only [List.map_cons, List.zipWith_cons_cons, List.sum_cons, ih]
    rw [div_mul_div_comm, div_add_div_same]

theorem tokenIndexOf_getElem {tokens : List Str} {t : Str} {i : Nat}
    (h : tokenIndexOf tokens t = some i) : tokens[i]? = some t := by
  unfold tokenIndexOf at h
  cases hfi : tokens.reverse.indexOf? t with
  | none => rw [hfi] at h; simp at h
  | some j =>
    rw [hfi] at h
    simp only [Option.map_some', Option.some.injEq] at h
    unfold List.indexOf? at hfi
    obtain ⟨hlt, hp, -⟩ := List.findIdx?_eq_some_iff_getElem.1 hfi
    rw [List.length_reverse] at hlt
    have hrev : tokens.reverse[j]? = some t := by
      rw [List.getElem?_eq_getElem (by simpa using hlt)]
      have heqt := beq_iff_eq.1 hp
      simp_all
    rw [List.getElem?_reverse (by simpa using hlt)] at hrev
    rw [← h]
    exact hrev

theorem sum_zipWith_mul_eq_zero {a b : List ℚ}
    (h : ∀ i : Nat, (a[i]?.getD 0) * (b[i]?.getD 0) = 0) :
    (List.zipWith (fun x y => x * y) a b).sum = 0 := by
  induction a generalizing b with
  | nil => simp
  | cons x xs ih =>
    cases b with
    | nil => simp
    | cons y ys =>
      simp only [List.zipWith_cons_cons, List.sum_cons]
      have h0 := h 0
      simp only [List.getElem?_cons_zero, Option.getD_some] at h0
      rw [h0, zero_add]
      exact ih fun i => by simpa using h (i + 1)

theorem vectorize_as_scaled_raw (jsSqrt : ℚ → ℚ) (sig : RichSignature)
    (vocab : Vocabulary) :
    ∃ s : ℚ → ℚ, s 0 = 0 ∧
      vectorizeSignature jsSqrt sig vocab = (rawVector sig vocab).map s := by
  unfold vectorizeSignature
  dsimp only
  split
  · exact ⟨fun x => x / jsSqrt (((rawVector sig vocab).map (fun v => v * v)).sum),
      zero_div _, rfl⟩
  · exact ⟨fun x => x, rfl, (List.map_id _).symm⟩

/-- C9 (amended): cosine similarity always lies in `[0, 1]`; two identical
signatures yield exactly 1.0 provided the signature contributes at least one
vocabulary token (positive norm) and the square root of the norm² is exact
(over the reals this is the claim's identical case; the zero-vector case of
the counterexample yields 0 instead); and two signatures sharing no tokens
yield 0.0 whenever the vocabulary is non-empty (an empty vocabulary makes
`cosineSimilarity` return 1 for the two empty vectors). -/
theorem cosineSimilarity_spec :
    (∀ a b : List ℚ, 0 ≤ cosineSimilarity a b ∧ cosineSimilarity a b ≤ 1) ∧
    (∀ (jsSqrt : ℚ → ℚ) (sig : RichSignature) (vocab : Vocabulary),
      jsSqrt (((rawVector sig vocab).map (fun v => v * v)).sum) *
          jsSqrt (((rawVector sig vocab).map (fun v => v * v)).sum)
        = ((rawVector sig vocab).map (fun v => v * v)).sum →
      0 < jsSqrt (((rawVector sig vocab).map (fun v => v * v)).sum) →
      cosineSimilarity (vectorizeSignature jsSqrt sig vocab)
        (vectorizeSignature jsSqrt sig vocab) = 1) ∧
    (∀ (jsSqrt : ℚ → ℚ) (sig1 sig2 : RichSignature) (vocab : Vocabulary),
      (∀ t, t ∈ sigTokens sig1 → t ∉ sigTokens sig2) →
      vocab.tokens ≠ [] →
      cosineSimilarity (vectorizeSignature jsSqrt sig1 vocab)
        (vectorizeSignature jsSqrt sig2 vocab) = 0) := by
  refine ⟨?_, ?_, ?_⟩
  · intro a b
    unfold cosineSimilarity
    split
    · exact ⟨le_refl 0, by norm_num⟩
    · split
      · exact ⟨by norm_num, le_refl 1⟩
      · exact ⟨le_max_left 0 _, max_le (by norm_num) (min_le_left 1 _)⟩
  · intro jsSqrt sig vocab hsq hpos
    have hveq : vectorizeSignature jsSqrt sig vocab
        = (rawVector sig vocab).map
            (fun x => x / jsSqrt (((rawVector sig vocab).map (fun v => v * v)).sum)) := by
      unfold vectorizeSignature
      dsimp only
      split
      · rfl
      · case isFalse hn => exact absurd hpos hn
    rw [hveq]
    unfold cosineSimilarity
    rw [if_neg (by simp)]
    split
    · rfl
    · case isFalse hlen =>
      rw [sum_sq_div, hsq]
      have hS : ((rawVector sig vocab).map (fun v => v * v)).sum ≠ 0 := by
        have hp2 : 0 < ((rawVector sig vocab).map (fun v => v * v)).sum := by
          rw [← hsq]
          exact mul_pos hpos hpos
        exact ne_of_gt hp2
      rw [div_self hS]
      norm_num
  · intro jsSqrt sig1 sig2 vocab hdisj hne
    obtain ⟨s1, hs1, hu⟩ := vectorize_as_scaled_raw jsSqrt sig1 vocab
    obtain ⟨s2, hs2, hw⟩ := vectorize_as_scaled_raw jsSqrt sig2 vocab
    have hraw0 : ∀ (sig : RichSignature) (i : Nat) (hi : i < vocab.tokens.length),
        (rawVector sig vocab)[i]?
          = some (if (sigTokens sig).any
              (fun t => tokenIndexOf vocab.tokens t = some i) then (1 : ℚ) else 0) := by
      intro sig i hi
      unfold rawVector
      rw [List.getElem?_map, List.getElem?_range hi]
      rfl
    have hpt : ∀ i : Nat,
        ((vectorizeSignature jsSqrt sig1 vocab)[i]?.getD 0) *
          ((vectorizeSignature jsSqrt sig2 vocab)[i]?.getD 0) = 0 := by
      intro i
      rw [hu, hw, List.getElem?_map, List.getElem?_map]
      by_cases hi : i < vocab.tokens.length
      · rw [hraw0 sig1 i hi, hraw0 sig2 i hi]
        by_cases h1 : (sigTokens sig1).any
            (fun t => tokenIndexOf vocab.tokens t = some i) = true
        · have h2 : (sigTokens sig2).any
              (fun t => tokenIndexOf vocab.tokens t = some i) = false := by
            rw [Bool.eq_false_iff]
            intro h2
            obtain ⟨t1, ht1, hidx1⟩ := List.any_eq_true.1 h1
            obtain ⟨t2, ht2, hidx2⟩ := List.any_eq_true.1 h2
            have e1 := tokenIndexOf_getElem (of_decide_eq_true hidx1)
            have e2 := tokenIndexOf_getElem (of_decide_eq_true hidx2)
            rw [e1] at e2
            exact hdisj t1 ht1 (Option.some_inj.1 e2 ▸ ht2)
          rw [h2]
          simp [hs2]
        · rw [Bool.not_eq_true] at h1
          rw [h1]
          simp [hs1]
      · have hnone : (List.range vocab.tokens.length)[i]? = none := by
          rw [List.getElem?_eq_none]
          simpa using Nat.le_of_not_lt hi
        unfold rawVector
        rw [List.getElem?_map, hnone]
        simp
    have hlen1 : (vectorizeSignature jsSqrt sig1 vocab).length = vocab.tokens.length := by
      rw [hu]
      simp [rawVector]
    have hlen2 : (vectorizeSignature jsSqrt sig2 vocab).length = vocab.tokens.length := by
      rw [hw]
      simp [rawVector]
    unfold cosineSimilarity
    rw [if_neg (by rw [hlen1, hlen2]; simp)]
    rw [if_neg (by rw [hlen1]; simpa using hne)]
    rw [sum_zipWith_mul_eq_zero hpt]
    norm_num

end AgentCI

namespace AgentCI

theorem rawVector_oneWrite :
    rawVector oneWriteRichSig { tokens := [str "fs_w:a"] } = [1] := by
  have hcond : (sigTokens oneWriteRichSig).any
      (fun t => tokenIndexOf [str "fs_w:a"] t = some 0) = true := by decide
  unfold rawVector
  have hr : List.range ({ tokens := [str "fs_w:a"] } : Vocabulary).tokens.length = [0] :=
    rfl
  rw [hr]
  simp only [List.map_cons, List.map_nil, hcond, if_true]

/-- Witness for C9: over the one-token vocabulary `[fs_w:a]`, the one-write
signature vectorizes to `[1]` (exact sqrt at 1), identical similarity is 1,
and its similarity with the token-disjoint empty signature is 0. -/
theorem cosineSimilarity_spec_witness :
    (ratSqrt (((rawVector oneWriteRichSig { tokens := [str "fs_w:a"] }).map
          (fun v => v * v)).sum) *
        ratSqrt (((rawVector oneWriteRichSig { tokens := [str "fs_w:a"] }).map
          (fun v => v * v)).sum)
      = ((rawVector oneWriteRichSig { tokens := [str "fs_w:a"] }).map
          (fun v => v * v)).sum ∧
      0 < ratSqrt (((rawVector oneWriteRichSig { tokens := [str "fs_w:a"] }).map
          (fun v => v * v)).sum) ∧
      (∀ t, t ∈ sigTokens oneWriteRichSig → t ∉ sigTokens emptyRichSig) ∧
      ({ tokens := [str "fs_w:a"] } : Vocabulary).tokens ≠ []) ∧
    (cosineSimilarity
        (vectorizeSignature ratSqrt oneWriteRichSig { tokens := [str "fs_w:a"] })
        (vectorizeSignature ratSqrt oneWriteRichSig { tokens := [str "fs_w:a"] }) = 1 ∧
      cosineSimilarity
        (vectorizeSignature ratSqrt oneWriteRichSig { tokens := [str "fs_w:a"] })
        (vectorizeSignature ratSqrt emptyRichSig { tokens := [str "fs_w:a"] }) = 0) := by
  have hsq : ratSqrt (((rawVector oneWriteRichSig { tokens := [str "fs_w:a"] }).map
        (fun v => v * v)).sum) *
      ratSqrt (((rawVector oneWriteRichSig { tokens := [str "fs_w:a"] }).map
        (fun v => v * v)).sum)
      = ((rawVector oneWriteRichSig { tokens := [str "fs_w:a"] }).map
        (fun v => v * v)).sum := by
    rw [rawVector_oneWrite]
    norm_num [ratSqrt]
  have hpos : 0 < ratSqrt (((rawVector oneWriteRichSig
      { tokens := [str "fs_w:a"] }).map (fun v => v * v)).sum) := by
    rw [rawVector_oneWrite]
    norm_num [ratSqrt]
  have hdisj : ∀ t, t ∈ sigTokens oneWriteRichSig → t ∉ sigTokens emptyRichSig := by
    intro t ht
    simp [sigTokens, emptyRichSig]
  have hne : ({ tokens := [str "fs_w:a"] } : Vocabulary).tokens ≠ [] := by
    simp
  exact ⟨⟨hsq, hpos, hdisj, hne⟩,
    cosineSimilarity_spec.2.1 ratSqrt oneWriteRichSig { tokens := [str "fs_w:a"] } hsq hpos,
    cosineSimilarity_spec.2.2 ratSqrt oneWriteRichSig emptyRichSig
      { tokens := [str "fs_w:a"] } hdisj hne⟩

end AgentCI
